import Mathlib

/-!
# Sink: a verification development of the structured-logging core

Shallow embedding of `pkg/logger` (`event.go`, `sink.go`, `logger.go`) and of
`pkg/sinks/console.go`.

* Go's `error` is `Option String`: `none` is `nil`, `some t` is an error whose
  `Error()` text is `t`.
* A `Sink` is any implementation of the two-method interface.  Its methods run
  against an environment `Env σ` (the process's standard output plus whatever
  state `σ` the sinks own) and return an `error` and the new environment.
* Every operation of the logger returns an `Outcome`: its Go return value, the
  environment it leaves, and the ordered record of what it did to its
  collaborators (`Action`): each `sink.Write`, each `sink.Close`, each
  `fmt.Printf`, together with what the call returned.
* `time.Now()` is an input of the call (`now`).
* A field map is a value: a sink reads the map of the event it is handed and
  does not modify it.
* Sinks are told apart by their position in the list given to `New`.
* The mutex only matters between goroutines; the operations below are the
  bodies executed while the lock is held, one call at a time.
* The methods have the pointer receiver `l *logger`.  `logger.log`,
  `logger.Shutdown` and the four logging operations give the outcome of a call;
  `receiver.log`, `receiver.Shutdown` and the others give, with the same body,
  also the struct the call leaves behind the receiver.
* `writeResults` and `closeResults` word dispatch and shutdown as the
  specification does, on the sinks themselves: what each sink of the list
  returns when the sinks are called one after another in the order of the list.
* `time.Time.Format` and the JSON encoder are library functions; the console
  sink takes them as the parameter `Lib`.  A field map is kept as the list of
  its entries in the order a `range` loop visits them.
-/

namespace SinkRepo

/-! ## event.go -/

/-- Go `type Level uint8`. -/
abbrev Level := Fin 256

def DebugLevel : Level := 0
def InfoLevel : Level := 1
def WarnLevel : Level := 2
def ErrorLevel : Level := 3

/-- Go `func (l Level) String() string`. -/
def Level.String (l : Level) : String :=
  if l = DebugLevel then "DEBUG"
  else if l = InfoLevel then "INFO"
  else if l = WarnLevel then "WARN"
  else if l = ErrorLevel then "ERROR"
  else "UNKNOWN"

/-- Go `time.Time`, kept as the instant it denotes. -/
structure time.Time where
  unixNano : Int
  deriving DecidableEq, Repr

/-- Values of Go's `any` that occur as field values. -/
inductive Any where
  | str (s : String)
  | int (n : Int)
  | bool (b : Bool)
  | null
  deriving DecidableEq, Repr

/-- Go `type Fields map[string]any`; `none` is the nil map. -/
abbrev Fields := Option (List (String × Any))

/-- Go `type Event struct`. -/
structure Event where
  Time : time.Time
  Level : Level
  Service : String
  Env : String
  Message : String
  Fields : Fields
  deriving DecidableEq, Repr

/-! ## sink.go -/

/-- Go's `error` interface value: `none` is `nil`, `some t` has `Error()` text `t`. -/
abbrev error := Option String

/-- The part of the process the sinks and `fmt.Printf` act on. -/
structure Env (σ : Type) where
  stdout : List String
  heap : σ
  deriving DecidableEq, Repr

/-- Go `type Sink interface { Write(Event) error; Close() error }`. -/
structure Sink (σ : Type) where
  Write : Event → Env σ → error × Env σ
  Close : Env σ → error × Env σ

/-! ## logger.go -/

/-- Go `type Config struct`. -/
structure Config where
  Service : String
  Env : String
  MinLevel : Level
  Async : Bool
  deriving DecidableEq, Repr

/-- Go `type logger struct` (the mutex has no sequential content). -/
structure logger (σ : Type) where
  cfg : Config
  sinks : List (Sink σ)

/-- What the logger does to its collaborators: a call of `Write` or `Close` on
the sink registered at position `sink` (counted from 0) with the value the call
returned, or a `fmt.Printf` with the text it printed. -/
inductive Action where
  | Write (sink : Nat) (e : Event) (ret : error)
  | Close (sink : Nat) (ret : error)
  | Printf (out : String)
  deriving DecidableEq, Repr

/-- Result of running an operation: return value, environment, actions made. -/
structure Outcome (σ : Type) (α : Type) where
  ret : α
  env : Env σ
  trace : List Action

/-- Go `func New(cfg Config, sinks ...Sink) Logger`. -/
def New {σ : Type} (cfg : Config) (sinks : List (Sink σ)) : logger σ :=
  let cfg := if cfg.Service = "" then { cfg with Service := "unknown" } else cfg
  let cfg := if cfg.Env = "" then { cfg with Env := "development" } else cfg
  { cfg := cfg, sinks := sinks }

/-- Go `fmt.Printf(format, ...)` writing `out` to standard output. -/
def fmt.Printf {σ : Type} (out : String) (env : Env σ) : Env σ :=
  { env with stdout := env.stdout ++ [out] }

/-- The loop `for _, sink := range l.sinks { ... }` of `log`; `i` is the
position of the first sink of the remaining list. -/
def logger.writeLoop {σ : Type} (event : Event) :
    List (Sink σ) → Nat → Env σ → Env σ × List Action
  | [], _, env => (env, [])
  | sink :: rest, i, env =>
    let (err, env1) := sink.Write event env
    match err with
    | some e =>
      let out := "sink error: " ++ e ++ "\n"
      let (env2, tr) := logger.writeLoop event rest (i + 1) (fmt.Printf out env1)
      (env2, Action.Write i event err :: Action.Printf out :: tr)
    | none =>
      let (env2, tr) := logger.writeLoop event rest (i + 1) env1
      (env2, Action.Write i event err :: tr)

/-- Go `func (l *logger) log(level Level, msg string, fields Fields)`. -/
def logger.log {σ : Type} (l : logger σ) (level : Level) (msg : String) (fields : Fields)
    (now : time.Time) (env : Env σ) : Outcome σ Unit :=
  if level < l.cfg.MinLevel then
    { ret := (), env := env, trace := [] }
  else
    let event : Event :=
      { Time := now
        Level := level
        Service := l.cfg.Service
        Env := l.cfg.Env
        Message := msg
        Fields := fields }
    let (env1, tr) := logger.writeLoop event l.sinks 0 env
    { ret := (), env := env1, trace := tr }

/-- Go `func (l *logger) Debug(msg string, fields Fields)`. -/
def logger.Debug {σ : Type} (l : logger σ) (msg : String) (fields : Fields)
    (now : time.Time) (env : Env σ) : Outcome σ Unit :=
  l.log DebugLevel msg fields now env

/-- Go `func (l *logger) Info(msg string, fields Fields)`. -/
def logger.Info {σ : Type} (l : logger σ) (msg : String) (fields : Fields)
    (now : time.Time) (env : Env σ) : Outcome σ Unit :=
  l.log InfoLevel msg fields now env

/-- Go `func (l *logger) Warn(msg string, fields Fields)`. -/
def logger.Warn {σ : Type} (l : logger σ) (msg : String) (fields : Fields)
    (now : time.Time) (env : Env σ) : Outcome σ Unit :=
  l.log WarnLevel msg fields now env

/-- Go `func (l *logger) Error(msg string, fields Fields)`. -/
def logger.Error {σ : Type} (l : logger σ) (msg : String) (fields : Fields)
    (now : time.Time) (env : Env σ) : Outcome σ Unit :=
  l.log ErrorLevel msg fields now env

/-- The loop `for _, sink := range l.sinks { ... }` of `Shutdown`; `errs` is the
slice accumulated so far, `i` the position of the first remaining sink. -/
def logger.closeLoop {σ : Type} :
    List (Sink σ) → Nat → List String → Env σ → List String × Env σ × List Action
  | [], _, errs, env => (errs, env, [])
  | sink :: rest, i, errs, env =>
    let (err, env1) := sink.Close env
    let errs1 := match err with
      | some e => errs ++ [e]
      | none => errs
    let (errs2, env2, tr) := logger.closeLoop rest (i + 1) errs1 env1
    (errs2, env2, Action.Close i err :: tr)

/-- Elements of a slice as `%v` prints them between the brackets: separated by
one space. -/
def fmt.joinSpace : List String → String
  | [] => ""
  | [e] => e
  | e :: es => e ++ " " ++ fmt.joinSpace es

/-- Go `fmt.Sprintf("%v", errs)` for `errs []error`: `[e1 e2 ... en]`. -/
def fmt.sliceV (errs : List String) : String :=
  "[" ++ fmt.joinSpace errs ++ "]"

/-- Go `fmt.Errorf("shutdown errors: %v", errs)`. -/
def fmt.Errorf (errs : List String) : error :=
  some ("shutdown errors: " ++ fmt.sliceV errs)

/-- Go `func (l *logger) Shutdown() error`. -/
def logger.Shutdown {σ : Type} (l : logger σ) (env : Env σ) : Outcome σ error :=
  let (errs, env1, tr) := logger.closeLoop l.sinks 0 [] env
  if errs.length > 0 then
    { ret := fmt.Errorf errs, env := env1, trace := tr }
  else
    { ret := none, env := env1, trace := tr }

/-! ## Callers and observations -/

/-- The four exported logging operations of the `Logger` interface. -/
inductive Method where
  | Debug
  | Info
  | Warn
  | Error
  deriving DecidableEq, Repr

/-- Level constant the operation passes to `log`. -/
def Method.level : Method → Level
  | .Debug => DebugLevel
  | .Info => InfoLevel
  | .Warn => WarnLevel
  | .Error => ErrorLevel

/-- Calling operation `m` of the `Logger` interface on `l`. -/
def logger.call {σ : Type} (l : logger σ) (m : Method) (msg : String) (fields : Fields)
    (now : time.Time) (env : Env σ) : Outcome σ Unit :=
  match m with
  | .Debug => l.Debug msg fields now env
  | .Info => l.Info msg fields now env
  | .Warn => l.Warn msg fields now env
  | .Error => l.Error msg fields now env

/-- Events of the `Write` calls made on the sink at position `i`, in order. -/
def writesTo (i : Nat) : List Action → List Event
  | [] => []
  | Action.Write j e _ :: tr => if j = i then e :: writesTo i tr else writesTo i tr
  | _ :: tr => writesTo i tr

/-- The `Write` calls of a trace, in order: position of the sink and event. -/
def writeCalls : List Action → List (Nat × Event)
  | [] => []
  | Action.Write j e _ :: tr => (j, e) :: writeCalls tr
  | _ :: tr => writeCalls tr

/-- The `Close` calls of a trace, in order: position of the sink. -/
def closeCalls : List Action → List Nat
  | [] => []
  | Action.Close j _ :: tr => j :: closeCalls tr
  | _ :: tr => closeCalls tr

/-- Error texts returned by the failing `Write` calls of a trace, in order. -/
def writeFailures : List Action → List String
  | [] => []
  | Action.Write _ _ (some e) :: tr => e :: writeFailures tr
  | _ :: tr => writeFailures tr

/-- Error texts returned by the failing `Close` calls of a trace, in order. -/
def closeFailures : List Action → List String
  | [] => []
  | Action.Close _ (some e) :: tr => e :: closeFailures tr
  | _ :: tr => closeFailures tr

/-- Texts printed by the `fmt.Printf` calls of a trace, in order. -/
def printed : List Action → List String
  | [] => []
  | Action.Printf out :: tr => out :: printed tr
  | _ :: tr => printed tr

/-- Text `t` occurs inside text `s`. -/
def occursIn (t s : String) : Prop := ∃ a b : String, s = a ++ t ++ b

/-- A call received by a recording sink. -/
inductive SpyCall where
  | Write (id : Nat) (e : Event)
  | Close (id : Nat)
  deriving DecidableEq, Repr

/-- A test sink that records every call it receives under its name `id` and
answers `Write` with `werr` and `Close` with `cerr`. -/
def spy (id : Nat) (werr cerr : error) : Sink (List SpyCall) where
  Write := fun e env => (werr, { env with heap := env.heap ++ [SpyCall.Write id e] })
  Close := fun env => (cerr, { env with heap := env.heap ++ [SpyCall.Close id] })

/-- An environment in which nothing has been printed or recorded. -/
def Env.empty : Env (List SpyCall) := { stdout := [], heap := [] }

/-- The event an accepted call of operation `m` builds (the struct literal of `log`). -/
def logger.eventOf {σ : Type} (l : logger σ) (m : Method) (msg : String) (fields : Fields)
    (now : time.Time) : Event :=
  { Time := now
    Level := m.level
    Service := l.cfg.Service
    Env := l.cfg.Env
    Message := msg
    Fields := fields }

/-- One call of a logging operation by the application. -/
structure LogCall where
  method : Method
  msg : String
  fields : Fields
  now : time.Time
  deriving DecidableEq, Repr

/-- Executing a sequence of logging calls one after another on `l`. -/
def logger.run {σ : Type} (l : logger σ) : List LogCall → Env σ → Env σ × List Action
  | [], env => (env, [])
  | c :: cs, env =>
    let o := l.call c.method c.msg c.fields c.now env
    let (env2, tr) := l.run cs o.env
    (env2, o.trace ++ tr)

/-- Configuration of the scenarios: minimum level Warn. -/
def cfgWarn : Config := { Service := "svc", Env := "prod", MinLevel := WarnLevel, Async := false }

/-- Two healthy recording sinks A (0) and B (1). -/
def sinksAB : List (Sink (List SpyCall)) := [spy 0 none none, spy 1 none none]

/-- Field map `{"k": "v"}`. -/
def fieldsKV : Fields := some [("k", Any.str "v")]

/-- Recording sinks A (0) and B (1) of which A fails both `Write` and `Close`. -/
def sinksFailA : List (Sink (List SpyCall)) := [spy 0 (some "boom") (some "disk full"), spy 1 none none]

/-- One recording sink whose `Close` returns the error "disk full". -/
def sinkDiskFull : List (Sink (List SpyCall)) := [spy 0 none (some "disk full")]

/-- A sequence of four calls: Info "a", Error "b", Warn "c", Debug "d". -/
def callsABCD : List LogCall :=
  [⟨Method.Info, "a", none, ⟨1⟩⟩, ⟨Method.Error, "b", fieldsKV, ⟨2⟩⟩,
   ⟨Method.Warn, "c", none, ⟨3⟩⟩, ⟨Method.Debug, "d", none, ⟨4⟩⟩]

/-- One call of an operation of the `Logger` interface by the application. -/
inductive Op where
  | log (c : LogCall)
  | Shutdown
  deriving DecidableEq, Repr

/-- What one operation leaves behind: the `logger` struct behind the receiver
pointer, the Go return value (`none` for the logging operations, which return
nothing), the environment and the actions made. -/
structure Step (σ : Type) where
  l : logger σ
  ret : Option error
  env : Env σ
  trace : List Action

/-- Go `func (l *logger) log(level Level, msg string, fields Fields)` as a
transformer of the struct `*l` behind its pointer receiver: the struct as the
call leaves it, and the outcome of the call. -/
def receiver.log {σ : Type} (l : logger σ) (level : Level) (msg : String) (fields : Fields)
    (now : time.Time) (env : Env σ) : logger σ × Outcome σ Unit :=
  if level < l.cfg.MinLevel then
    (l, { ret := (), env := env, trace := [] })
  else
    let event : Event :=
      { Time := now
        Level := level
        Service := l.cfg.Service
        Env := l.cfg.Env
        Message := msg
        Fields := fields }
    let (env1, tr) := logger.writeLoop event l.sinks 0 env
    (l, { ret := (), env := env1, trace := tr })

/-- Go `func (l *logger) Debug(msg string, fields Fields)` on the receiver. -/
def receiver.Debug {σ : Type} (l : logger σ) (msg : String) (fields : Fields)
    (now : time.Time) (env : Env σ) : logger σ × Outcome σ Unit :=
  receiver.log l DebugLevel msg fields now env

/-- Go `func (l *logger) Info(msg string, fields Fields)` on the receiver. -/
def receiver.Info {σ : Type} (l : logger σ) (msg : String) (fields : Fields)
    (now : time.Time) (env : Env σ) : logger σ × Outcome σ Unit :=
  receiver.log l InfoLevel msg fields now env

/-- Go `func (l *logger) Warn(msg string, fields Fields)` on the receiver. -/
def receiver.Warn {σ : Type} (l : logger σ) (msg : String) (fields : Fields)
    (now : time.Time) (env : Env σ) : logger σ × Outcome σ Unit :=
  receiver.log l WarnLevel msg fields now env

/-- Go `func (l *logger) Error(msg string, fields Fields)` on the receiver. -/
def receiver.Error {σ : Type} (l : logger σ) (msg : String) (fields : Fields)
    (now : time.Time) (env : Env σ) : logger σ × Outcome σ Unit :=
  receiver.log l ErrorLevel msg fields now env

/-- Calling operation `m` of the `Logger` interface on the receiver. -/
def receiver.call {σ : Type} (l : logger σ) (m : Method) (msg : String) (fields : Fields)
    (now : time.Time) (env : Env σ) : logger σ × Outcome σ Unit :=
  match m with
  | .Debug => receiver.Debug l msg fields now env
  | .Info => receiver.Info l msg fields now env
  | .Warn => receiver.Warn l msg fields now env
  | .Error => receiver.Error l msg fields now env

/-- Go `func (l *logger) Shutdown() error` as a transformer of the struct `*l`
behind its pointer receiver: the struct as the call leaves it, and the outcome
of the call. -/
def receiver.Shutdown {σ : Type} (l : logger σ) (env : Env σ) : logger σ × Outcome σ error :=
  let (errs, env1, tr) := logger.closeLoop l.sinks 0 [] env
  if errs.length > 0 then
    (l, { ret := fmt.Errorf errs, env := env1, trace := tr })
  else
    (l, { ret := none, env := env1, trace := tr })

/-- Executing one operation on the logger `l`: the struct the method leaves
behind its receiver, its return value, the environment and the actions. -/
def logger.exec {σ : Type} (l : logger σ) (op : Op) (env : Env σ) : Step σ :=
  match op with
  | Op.log c =>
    let r := receiver.call l c.method c.msg c.fields c.now env
    { l := r.1, ret := none, env := r.2.env, trace := r.2.trace }
  | Op.Shutdown =>
    let r := receiver.Shutdown l env
    { l := r.1, ret := some r.2.ret, env := r.2.env, trace := r.2.trace }

/-- Executing a sequence of operations one after another, each on the logger
and the environment the previous one left: the final logger, the final
environment, and the return value and actions of every operation. -/
def logger.execAll {σ : Type} (l : logger σ) :
    List Op → Env σ → logger σ × Env σ × List (Option error × List Action)
  | [], env => (l, env, [])
  | op :: ops, env =>
    let s := l.exec op env
    let (l2, env2, rs) := s.l.execAll ops s.env
    (l2, env2, (s.ret, s.trace) :: rs)

/-- A recording sink whose `Close` succeeds the first time and fails with
"already closed" once it has recorded a `Close` before. -/
def closeOnce (id : Nat) : Sink (List SpyCall) where
  Write := fun e env => (none, { env with heap := env.heap ++ [SpyCall.Write id e] })
  Close := fun env =>
    (if SpyCall.Close id ∈ env.heap then some "already closed" else none,
      { env with heap := env.heap ++ [SpyCall.Close id] })

/-! ## console.go -/

/-- Go `time.RFC3339`. -/
def time.RFC3339 : String := "2006-01-02T15:04:05Z07:00"

/-- A value stored in the map `data` of `writeJSON`: a string, or the field map
of the event. -/
inductive DataValue where
  | str (s : String)
  | fields (f : Fields)
  deriving DecidableEq, Repr

/-- The library functions `console.go` calls: `t.Format(layout)` of package
`time`, and `json.NewEncoder(os.Stdout).Encode(data)` for the map `data`. -/
structure Lib (σ : Type) where
  Format : time.Time → String → String
  Encode : List (String × DataValue) → Env σ → error × Env σ

/-- Go `type ConsoleSink struct`. -/
structure ConsoleSink where
  pretty : Bool
  deriving DecidableEq, Repr

/-- Go `func NewConsole(pretty bool) *ConsoleSink`. -/
def NewConsole (pretty : Bool) : ConsoleSink := { pretty := pretty }

/-- Go `len(m)` for a field map: 0 for the nil map. -/
def Fields.len : Fields → Nat
  | none => 0
  | some kvs => kvs.length

/-- The entries `for k, v := range m` visits, in the order of the visit. -/
def Fields.entries : Fields → List (String × Any)
  | none => []
  | some kvs => kvs

/-- Go `%v` of a field value. -/
def Any.formatV : Any → String
  | Any.str s => s
  | Any.int n => toString n
  | Any.bool b => if b then "true" else "false"
  | Any.null => "<nil>"

/-- Go `fmt.Print(out)`. -/
def fmt.Print {σ : Type} (out : String) (env : Env σ) : Env σ :=
  { env with stdout := env.stdout ++ [out] }

/-- Go `fmt.Println()`. -/
def fmt.Println {σ : Type} (env : Env σ) : Env σ :=
  { env with stdout := env.stdout ++ ["\n"] }

/-- The loop `for k, v := range e.Fields { fmt.Printf(" %s=%v", k, v) }`. -/
def ConsoleSink.printFields {σ : Type} : List (String × Any) → Env σ → Env σ
  | [], env => env
  | (k, v) :: rest, env =>
    ConsoleSink.printFields rest (fmt.Printf (" " ++ k ++ "=" ++ v.formatV) env)

/-- Go `func (c *ConsoleSink) writePretty(e logger.Event) error`. -/
def ConsoleSink.writePretty {σ : Type} (lib : Lib σ) (_c : ConsoleSink) (e : Event)
    (env : Env σ) : error × Env σ :=
  let env1 := fmt.Printf
    ("[" ++ lib.Format e.Time "15:04:05" ++ "] " ++ e.Level.String ++ " | " ++ e.Service
      ++ " | " ++ e.Message) env
  let env2 :=
    if Fields.len e.Fields > 0 then
      ConsoleSink.printFields (Fields.entries e.Fields) (fmt.Print " |" env1)
    else env1
  (none, fmt.Println env2)

/-- The map `data` that `writeJSON` hands to the encoder. -/
def ConsoleSink.jsonData {σ : Type} (lib : Lib σ) (e : Event) : List (String × DataValue) :=
  let data := [("time", DataValue.str (lib.Format e.Time time.RFC3339)),
    ("level", DataValue.str e.Level.String),
    ("service", DataValue.str e.Service),
    ("env", DataValue.str e.Env),
    ("message", DataValue.str e.Message)]
  if Fields.len e.Fields > 0 then data ++ [("fields", DataValue.fields e.Fields)] else data

/-- Go `func (c *ConsoleSink) writeJSON(e logger.Event) error`. -/
def ConsoleSink.writeJSON {σ : Type} (lib : Lib σ) (_c : ConsoleSink) (e : Event)
    (env : Env σ) : error × Env σ :=
  lib.Encode (ConsoleSink.jsonData lib e) env

/-- Go `func (c *ConsoleSink) Write(e logger.Event) error`. -/
def ConsoleSink.Write {σ : Type} (lib : Lib σ) (c : ConsoleSink) (e : Event)
    (env : Env σ) : error × Env σ :=
  if c.pretty then c.writePretty lib e env else c.writeJSON lib e env

/-- Go `func (c *ConsoleSink) Close() error`. -/
def ConsoleSink.Close {σ : Type} (_c : ConsoleSink) (env : Env σ) : error × Env σ :=
  (none, env)

/-- A `*ConsoleSink` as a value of the interface `Sink`. -/
def ConsoleSink.toSink {σ : Type} (lib : Lib σ) (c : ConsoleSink) : Sink σ where
  Write := c.Write lib
  Close := c.Close

/-- The text of a sequence of writes to standard output. -/
def fmt.text : List String → String
  | [] => ""
  | out :: rest => out ++ fmt.text rest

/-- A stand-in for the library in the scenarios: every instant is rendered as
its layout, and the encoder writes the keys of the object. -/
def libDemo : Lib (List SpyCall) where
  Format := fun _ layout => layout
  Encode := fun data env => (none, { env with stdout := env.stdout ++ data.map Prod.fst })

/-- A logger configuration whose minimum level is the out-of-range `Level(4)`. -/
def cfgLevel4 : Config := { Service := "svc", Env := "prod", MinLevel := 4, Async := false }

/-- Values returned by the `Write` calls of a trace, in order. -/
def writeRets : List Action → List error
  | [] => []
  | Action.Write _ _ r :: tr => r :: writeRets tr
  | _ :: tr => writeRets tr

/-- Values returned by the `Close` calls of a trace, in order. -/
def closeRets : List Action → List error
  | [] => []
  | Action.Close _ r :: tr => r :: closeRets tr
  | _ :: tr => closeRets tr

/-- Dispatch as the specification words it: what `Write(ev)` of each sink
returns when the sinks are written one after another in the order of the list,
starting in `env`, a failure being reported on standard output before the next
sink is written. -/
def writeResults {σ : Type} (ev : Event) : List (Sink σ) → Env σ → List error
  | [], _ => []
  | s :: rest, env =>
    (s.Write ev env).1 ::
      writeResults ev rest
        (match (s.Write ev env).1 with
          | some e => fmt.Printf ("sink error: " ++ e ++ "\n") (s.Write ev env).2
          | none => (s.Write ev env).2)

/-- Shutdown as the specification words it: what `Close` of each sink returns
when the sinks are closed one after another in the order of the list, starting
in `env`, unconditionally. -/
def closeResults {σ : Type} : List (Sink σ) → Env σ → List error
  | [], _ => []
  | s :: rest, env => (s.Close env).1 :: closeResults rest (s.Close env).2

/-- Recording sinks named `ids`, in that order; sink `id` answers `Write` with
`werr id` and `Close` with `cerr id`. -/
def spies (ids : List Nat) (werr cerr : Nat → error) : List (Sink (List SpyCall)) :=
  ids.map (fun id => spy id (werr id) (cerr id))

/-- Three recording sinks registered in the order C (2), A (0), B (1); `Write`
fails on C with "c down", `Close` fails on C with "c stuck" and on B with
"b stuck". -/
def sinksCAB : List (Sink (List SpyCall)) :=
  [spy 2 (some "c down") (some "c stuck"), spy 0 none none, spy 1 none (some "b stuck")]

/-! ## Basic facts -/

theorem New_sinks {σ : Type} (cfg : Config) (sinks : List (Sink σ)) :
    (New cfg sinks).sinks = sinks := rfl

theorem New_MinLevel {σ : Type} (cfg : Config) (sinks : List (Sink σ)) :
    (New cfg sinks).cfg.MinLevel = cfg.MinLevel := by
  unfold New
  by_cases h1 : cfg.Service = "" <;> by_cases h2 : cfg.Env = "" <;> simp [h1, h2]

theorem call_eq_log {σ : Type} (l : logger σ) (m : Method) (msg : String) (fields : Fields)
    (now : time.Time) (env : Env σ) :
    l.call m msg fields now env = l.log m.level msg fields now env := by
  cases m <;> rfl


theorem log_accepted {σ : Type} (l : logger σ) (m : Method) (msg : String) (fields : Fields)
    (now : time.Time) (env : Env σ) (h : l.cfg.MinLevel ≤ m.level) :
    l.call m msg fields now env =
      { ret := ()
        env := (logger.writeLoop (l.eventOf m msg fields now) l.sinks 0 env).1
        trace := (logger.writeLoop (l.eventOf m msg fields now) l.sinks 0 env).2 } := by
  rw [call_eq_log]
  unfold logger.log
  rw [if_neg (not_lt.mpr h)]
  rfl

theorem log_filtered {σ : Type} (l : logger σ) (m : Method) (msg : String) (fields : Fields)
    (now : time.Time) (env : Env σ) (h : m.level < l.cfg.MinLevel) :
    l.call m msg fields now env = { ret := (), env := env, trace := [] } := by
  rw [call_eq_log]
  unfold logger.log
  rw [if_pos h]

theorem writeLoop_nil {σ : Type} (ev : Event) (i : Nat) (env : Env σ) :
    logger.writeLoop ev ([] : List (Sink σ)) i env = (env, []) := rfl

theorem writeLoop_cons_none {σ : Type} (ev : Event) (s : Sink σ) (rest : List (Sink σ))
    (i : Nat) (env env1 : Env σ) (h : s.Write ev env = (none, env1)) :
    logger.writeLoop ev (s :: rest) i env
      = ((logger.writeLoop ev rest (i + 1) env1).1,
          Action.Write i ev none :: (logger.writeLoop ev rest (i + 1) env1).2) := by
  simp only [logger.writeLoop, h]

theorem writeLoop_cons_some {σ : Type} (ev : Event) (s : Sink σ) (rest : List (Sink σ))
    (i : Nat) (env env1 : Env σ) (e : String) (h : s.Write ev env = (some e, env1)) :
    logger.writeLoop ev (s :: rest) i env
      = ((logger.writeLoop ev rest (i + 1) (fmt.Printf ("sink error: " ++ e ++ "\n") env1)).1,
          Action.Write i ev (some e) :: Action.Printf ("sink error: " ++ e ++ "\n") ::
            (logger.writeLoop ev rest (i + 1)
              (fmt.Printf ("sink error: " ++ e ++ "\n") env1)).2) := by
  simp only [logger.writeLoop, h]

theorem writeLoop_writeCalls {σ : Type} (ev : Event) (sinks : List (Sink σ)) :
    ∀ (i : Nat) (env : Env σ),
      writeCalls (logger.writeLoop ev sinks i env).2
        = (List.range' i sinks.length).map (fun j => (j, ev)) := by
  induction sinks with
  | nil => intro i env; rfl
  | cons s rest ih =>
    intro i env
    rcases hw : s.Write ev env with ⟨err, env1⟩
    cases err with
    | none =>
      rw [writeLoop_cons_none ev s rest i env env1 hw]
      simp [writeCalls, ih, List.range']
    | some e =>
      rw [writeLoop_cons_some ev s rest i env env1 e hw]
      simp [writeCalls, ih, List.range']

theorem writeLoop_writesTo {σ : Type} (ev : Event) (sinks : List (Sink σ)) (j : Nat) :
    ∀ (i : Nat) (env : Env σ),
      writesTo j (logger.writeLoop ev sinks i env).2
        = if i ≤ j ∧ j < i + sinks.length then [ev] else [] := by
  induction sinks with
  | nil => intro i env; simp [logger.writeLoop, writesTo]
  | cons s rest ih =>
    intro i env
    rcases hw : s.Write ev env with ⟨err, env1⟩
    have key : ∀ env2 : Env σ,
        (if i = j then ev :: writesTo j (logger.writeLoop ev rest (i + 1) env2).2
          else writesTo j (logger.writeLoop ev rest (i + 1) env2).2)
        = if i ≤ j ∧ j < i + (s :: rest).length then [ev] else [] := by
      intro env2
      rw [ih]
      by_cases hij : i = j
      · subst hij
        simp
      · rw [if_neg hij]
        have : (i + 1 ≤ j ∧ j < i + 1 + rest.length) ↔ (i ≤ j ∧ j < i + (s :: rest).length) := by
          simp only [List.length_cons]
          omega
        simp only [this]
    cases err with
    | none =>
      rw [writeLoop_cons_none ev s rest i env env1 hw]
      simpa only [writesTo] using key env1
    | some e =>
      rw [writeLoop_cons_some ev s rest i env env1 e hw]
      simpa only [writesTo] using key _

theorem writeLoop_mem {σ : Type} (ev : Event) (sinks : List (Sink σ)) (j : Nat) :
    ∀ (i : Nat) (env : Env σ), i ≤ j → j < i + sinks.length →
      ∃ r, Action.Write j ev r ∈ (logger.writeLoop ev sinks i env).2 := by
  induction sinks with
  | nil => intro i env h1 h2; simp at h2; omega
  | cons s rest ih =>
    intro i env h1 h2
    rcases hw : s.Write ev env with ⟨err, env1⟩
    by_cases hij : i = j
    · subst hij
      cases err with
      | none =>
        rw [writeLoop_cons_none ev s rest i env env1 hw]
        exact ⟨none, by simp⟩
      | some e =>
        rw [writeLoop_cons_some ev s rest i env env1 e hw]
        exact ⟨some e, by simp⟩
    · have h1' : i + 1 ≤ j := by omega
      have h2' : j < i + 1 + rest.length := by simp only [List.length_cons] at h2; omega
      cases err with
      | none =>
        rw [writeLoop_cons_none ev s rest i env env1 hw]
        obtain ⟨r, hr⟩ := ih (i + 1) env1 h1' h2'
        exact ⟨r, by simp [hr]⟩
      | some e =>
        rw [writeLoop_cons_some ev s rest i env env1 e hw]
        obtain ⟨r, hr⟩ := ih (i + 1) (fmt.Printf ("sink error: " ++ e ++ "\n") env1) h1' h2'
        exact ⟨r, by simp [hr]⟩

theorem New_Service {σ : Type} (cfg : Config) (sinks : List (Sink σ)) :
    (New cfg sinks).cfg.Service = if cfg.Service = "" then "unknown" else cfg.Service := by
  unfold New
  by_cases h1 : cfg.Service = "" <;> by_cases h2 : cfg.Env = "" <;> simp [h1, h2]

theorem New_Env {σ : Type} (cfg : Config) (sinks : List (Sink σ)) :
    (New cfg sinks).cfg.Env = if cfg.Env = "" then "development" else cfg.Env := by
  unfold New
  by_cases h1 : cfg.Service = "" <;> by_cases h2 : cfg.Env = "" <;> simp [h1, h2]

theorem New_eventOf {σ : Type} (cfg : Config) (sinks : List (Sink σ)) (m : Method)
    (msg : String) (fields : Fields) (now : time.Time) :
    (New cfg sinks).eventOf m msg fields now =
      { Time := now
        Level := m.level
        Service := if cfg.Service = "" then "unknown" else cfg.Service
        Env := if cfg.Env = "" then "development" else cfg.Env
        Message := msg
        Fields := fields } := by
  unfold logger.eventOf
  rw [New_Service, New_Env]

theorem mem_writeCalls (tr : List Action) (i : Nat) (e : Event) (r : error)
    (h : Action.Write i e r ∈ tr) : (i, e) ∈ writeCalls tr := by
  induction tr with
  | nil => simp at h
  | cons a tr ih =>
    rcases List.mem_cons.mp h with h1 | h1
    · subst h1
      simp [writeCalls]
    · cases a <;> simp [writeCalls, ih h1]

theorem closeLoop_cons {σ : Type} (s : Sink σ) (rest : List (Sink σ)) (i : Nat)
    (errs : List String) (env env1 : Env σ) (err : error) (h : s.Close env = (err, env1)) :
    logger.closeLoop (s :: rest) i errs env
      = ((logger.closeLoop rest (i + 1)
            (match err with
              | some e => errs ++ [e]
              | none => errs) env1).1,
         (logger.closeLoop rest (i + 1)
            (match err with
              | some e => errs ++ [e]
              | none => errs) env1).2.1,
         Action.Close i err ::
          (logger.closeLoop rest (i + 1)
            (match err with
              | some e => errs ++ [e]
              | none => errs) env1).2.2) := by
  cases err <;> simp only [logger.closeLoop, h]

theorem closeLoop_closeCalls {σ : Type} (sinks : List (Sink σ)) :
    ∀ (i : Nat) (errs : List String) (env : Env σ),
      closeCalls (logger.closeLoop sinks i errs env).2.2 = List.range' i sinks.length := by
  induction sinks with
  | nil => intro i errs env; rfl
  | cons s rest ih =>
    intro i errs env
    rcases hc : s.Close env with ⟨err, env1⟩
    rw [closeLoop_cons s rest i errs env env1 err hc]
    simp [closeCalls, ih, List.range']

theorem closeLoop_errs {σ : Type} (sinks : List (Sink σ)) :
    ∀ (i : Nat) (errs : List String) (env : Env σ),
      (logger.closeLoop sinks i errs env).1
        = errs ++ closeFailures (logger.closeLoop sinks i errs env).2.2 := by
  induction sinks with
  | nil => intro i errs env; simp [logger.closeLoop, closeFailures]
  | cons s rest ih =>
    intro i errs env
    rcases hc : s.Close env with ⟨err, env1⟩
    rw [closeLoop_cons s rest i errs env env1 err hc]
    cases err with
    | none => simp only [closeFailures]; exact ih _ _ _
    | some e =>
      simp only [closeFailures]
      rw [ih]
      simp

theorem Shutdown_trace {σ : Type} (l : logger σ) (env : Env σ) :
    (l.Shutdown env).trace = (logger.closeLoop l.sinks 0 [] env).2.2 := by
  unfold logger.Shutdown
  split
  rename_i heq
  rw [heq]
  split <;> rfl

theorem Shutdown_ret {σ : Type} (l : logger σ) (env : Env σ) :
    (l.Shutdown env).ret =
      if (closeFailures (l.Shutdown env).trace).length > 0
      then fmt.Errorf (closeFailures (l.Shutdown env).trace) else none := by
  rw [Shutdown_trace]
  have h := closeLoop_errs l.sinks 0 [] env
  rw [List.nil_append] at h
  rw [← h]
  unfold logger.Shutdown
  split
  rename_i heq
  rw [heq]
  split <;> rfl

theorem mem_closeCalls (tr : List Action) (j : Nat) :
    j ∈ closeCalls tr ↔ ∃ r, Action.Close j r ∈ tr := by
  induction tr with
  | nil => simp [closeCalls]
  | cons a tr ih =>
    cases a with
    | Write k e r => simp [closeCalls, ih]
    | Printf out => simp [closeCalls, ih]
    | Close k r =>
      simp only [closeCalls, List.mem_cons, ih]
      constructor
      · rintro (h | ⟨r', h⟩)
        · exact ⟨r, Or.inl (by rw [h])⟩
        · exact ⟨r', Or.inr h⟩
      · rintro ⟨r', h | h⟩
        · left
          injection h
        · exact Or.inr ⟨r', h⟩

theorem writeLoop_event {σ : Type} (ev : Event) (sinks : List (Sink σ)) (i0 : Nat) (env : Env σ)
    (i : Nat) (e : Event) (r : error)
    (h : Action.Write i e r ∈ (logger.writeLoop ev sinks i0 env).2) : e = ev := by
  have h1 := mem_writeCalls _ _ _ _ h
  rw [writeLoop_writeCalls] at h1
  simp only [List.mem_map, Prod.mk.injEq] at h1
  obtain ⟨_, _, _, h2⟩ := h1
  exact h2.symm

theorem mem_closeFailures (tr : List Action) (t : String) :
    t ∈ closeFailures tr ↔ ∃ i, Action.Close i (some t) ∈ tr := by
  induction tr with
  | nil => simp [closeFailures]
  | cons a tr ih =>
    cases a with
    | Write k e r => simp [closeFailures, ih]
    | Printf out => simp [closeFailures, ih]
    | Close k r =>
      cases r with
      | none => simp [closeFailures, ih]
      | some t' =>
        simp only [closeFailures, List.mem_cons, ih]
        constructor
        · rintro (h | ⟨i, h⟩)
          · exact ⟨k, Or.inl (by rw [h])⟩
          · exact ⟨i, Or.inr h⟩
        · rintro ⟨i, h | h⟩
          · left
            injection h with _ h2
            injection h2
          · exact Or.inr ⟨i, h⟩

theorem closeFailures_eq_nil (tr : List Action) :
    closeFailures tr = [] ↔ ∀ i r, Action.Close i r ∈ tr → r = none := by
  constructor
  · intro h i r hmem
    cases r with
    | none => rfl
    | some t =>
      have : t ∈ closeFailures tr := (mem_closeFailures tr t).mpr ⟨i, hmem⟩
      rw [h] at this
      simp at this
  · intro h
    apply List.eq_nil_iff_forall_not_mem.mpr
    intro t ht
    obtain ⟨i, hi⟩ := (mem_closeFailures tr t).mp ht
    have := h i (some t) hi
    simp at this

theorem occursIn_refl (t : String) : occursIn t t :=
  ⟨"", "", by simp⟩

theorem occursIn_wrap (t s a b : String) (h : occursIn t s) : occursIn t (a ++ s ++ b) := by
  obtain ⟨x, y, hxy⟩ := h
  exact ⟨a ++ x, y ++ b, by rw [hxy]; simp [String.append_assoc]⟩

theorem occursIn_joinSpace (errs : List String) (t : String) (h : t ∈ errs) :
    occursIn t (fmt.joinSpace errs) := by
  induction errs with
  | nil => simp at h
  | cons e es ih =>
    cases es with
    | nil =>
      simp only [List.mem_singleton] at h
      subst h
      exact occursIn_refl t
    | cons e' es' =>
      rcases List.mem_cons.mp h with h1 | h1
      · subst h1
        exact ⟨"", " " ++ fmt.joinSpace (e' :: es'), by simp [fmt.joinSpace, String.append_assoc]⟩
      · have h2 := occursIn_wrap t _ (e ++ " ") "" (ih h1)
        simpa [fmt.joinSpace, String.append_assoc] using h2

theorem occursIn_Errorf (errs : List String) (t : String) (h : t ∈ errs) :
    occursIn t ("shutdown errors: " ++ ("[" ++ fmt.joinSpace errs ++ "]")) := by
  have h1 := occursIn_wrap t _ "[" "]" (occursIn_joinSpace errs t h)
  have h2 := occursIn_wrap t _ "shutdown errors: " "" h1
  simpa using h2

theorem call_event {σ : Type} (l : logger σ) (m : Method) (msg : String) (fields : Fields)
    (now : time.Time) (env : Env σ) (i : Nat) (e : Event) (r : error)
    (h : Action.Write i e r ∈ (l.call m msg fields now env).trace) :
    e = l.eventOf m msg fields now := by
  by_cases hlt : m.level < l.cfg.MinLevel
  · rw [log_filtered _ _ _ _ _ _ hlt] at h
    simp at h
  · rw [log_accepted _ _ _ _ _ _ (not_lt.mp hlt)] at h
    exact writeLoop_event _ _ _ _ _ _ _ h

theorem run_cons {σ : Type} (l : logger σ) (c : LogCall) (cs : List LogCall) (env : Env σ) :
    (l.run (c :: cs) env).2 =
      (l.call c.method c.msg c.fields c.now env).trace ++
        (l.run cs (l.call c.method c.msg c.fields c.now env).env).2 := rfl

theorem run_event {σ : Type} (l : logger σ) (calls : List LogCall) :
    ∀ (env : Env σ) (i : Nat) (e : Event) (r : error),
      Action.Write i e r ∈ (l.run calls env).2 →
      ∃ c ∈ calls, e = l.eventOf c.method c.msg c.fields c.now := by
  induction calls with
  | nil => intro env i e r h; simp [logger.run] at h
  | cons c cs ih =>
    intro env i e r h
    rw [run_cons] at h
    rcases List.mem_append.mp h with h1 | h1
    · exact ⟨c, List.mem_cons_self _ _, call_event _ _ _ _ _ _ _ _ _ h1⟩
    · obtain ⟨c', hc', he⟩ := ih _ _ _ _ h1
      exact ⟨c', List.mem_cons_of_mem _ hc', he⟩

theorem writesTo_append (i : Nat) (tr1 tr2 : List Action) :
    writesTo i (tr1 ++ tr2) = writesTo i tr1 ++ writesTo i tr2 := by
  induction tr1 with
  | nil => rfl
  | cons a tr ih =>
    cases a with
    | Write j e r =>
      by_cases hj : j = i <;> simp [writesTo, hj, ih]
    | Close j r => simpa [writesTo] using ih
    | Printf out => simpa [writesTo] using ih

theorem writeLoop_printed {σ : Type} (ev : Event) (sinks : List (Sink σ)) :
    ∀ (i : Nat) (env : Env σ),
      printed (logger.writeLoop ev sinks i env).2
        = (writeFailures (logger.writeLoop ev sinks i env).2).map
            (fun t => "sink error: " ++ t ++ "\n") := by
  induction sinks with
  | nil => intro i env; rfl
  | cons s rest ih =>
    intro i env
    rcases hw : s.Write ev env with ⟨err, env1⟩
    cases err with
    | none =>
      rw [writeLoop_cons_none ev s rest i env env1 hw]
      simpa [printed, writeFailures] using ih (i + 1) env1
    | some e =>
      rw [writeLoop_cons_some ev s rest i env env1 e hw]
      simpa [printed, writeFailures] using ih (i + 1) _

theorem writeLoop_stdout {σ : Type} (ev : Event) (sinks : List (Sink σ)) :
    ∀ (i : Nat) (env : Env σ),
      (∀ s ∈ sinks, ∀ (e : Event) (env0 : Env σ), (s.Write e env0).2.stdout = env0.stdout) →
      (logger.writeLoop ev sinks i env).1.stdout
        = env.stdout ++ printed (logger.writeLoop ev sinks i env).2 := by
  induction sinks with
  | nil => intro i env _; simp [logger.writeLoop, printed]
  | cons s rest ih =>
    intro i env hq
    have hrest : ∀ s' ∈ rest, ∀ (e : Event) (env0 : Env σ),
        (s'.Write e env0).2.stdout = env0.stdout :=
      fun s' hs' => hq s' (List.mem_cons_of_mem _ hs')
    rcases hw : s.Write ev env with ⟨err, env1⟩
    have h1 : env1.stdout = env.stdout := by
      have := hq s (List.mem_cons_self _ _) ev env
      rw [hw] at this
      exact this
    cases err with
    | none =>
      rw [writeLoop_cons_none ev s rest i env env1 hw]
      simp only [printed]
      rw [ih (i + 1) env1 hrest, h1]
    | some e =>
      rw [writeLoop_cons_some ev s rest i env env1 e hw]
      simp only [printed]
      rw [ih (i + 1) _ hrest]
      simp [fmt.Printf, h1]

theorem New_cfg {σ : Type} (cfg : Config) (sinks : List (Sink σ)) :
    (New cfg sinks).cfg =
      { Service := if cfg.Service = "" then "unknown" else cfg.Service
        Env := if cfg.Env = "" then "development" else cfg.Env
        MinLevel := cfg.MinLevel
        Async := cfg.Async } := by
  unfold New
  by_cases h1 : cfg.Service = "" <;> by_cases h2 : cfg.Env = "" <;> simp [h1, h2]

theorem receiver_log_fst {σ : Type} (l : logger σ) (level : Level) (msg : String)
    (fields : Fields) (now : time.Time) (env : Env σ) :
    (receiver.log l level msg fields now env).1 = l := by
  unfold receiver.log
  split <;> rfl

theorem receiver_log_snd {σ : Type} (l : logger σ) (level : Level) (msg : String)
    (fields : Fields) (now : time.Time) (env : Env σ) :
    (receiver.log l level msg fields now env).2 = l.log level msg fields now env := by
  unfold receiver.log logger.log
  split <;> rfl

theorem receiver_call_fst {σ : Type} (l : logger σ) (m : Method) (msg : String)
    (fields : Fields) (now : time.Time) (env : Env σ) :
    (receiver.call l m msg fields now env).1 = l := by
  cases m <;> exact receiver_log_fst l _ msg fields now env

theorem receiver_call_snd {σ : Type} (l : logger σ) (m : Method) (msg : String)
    (fields : Fields) (now : time.Time) (env : Env σ) :
    (receiver.call l m msg fields now env).2 = l.call m msg fields now env := by
  cases m <;> exact receiver_log_snd l _ msg fields now env

theorem receiver_Shutdown_fst {σ : Type} (l : logger σ) (env : Env σ) :
    (receiver.Shutdown l env).1 = l := by
  unfold receiver.Shutdown
  split
  split <;> rfl

theorem receiver_Shutdown_snd {σ : Type} (l : logger σ) (env : Env σ) :
    (receiver.Shutdown l env).2 = l.Shutdown env := by
  unfold receiver.Shutdown logger.Shutdown
  split
  split <;> rfl

theorem exec_log {σ : Type} (l : logger σ) (c : LogCall) (env : Env σ) :
    l.exec (Op.log c) env =
      { l := l
        ret := none
        env := (l.call c.method c.msg c.fields c.now env).env
        trace := (l.call c.method c.msg c.fields c.now env).trace } := by
  simp only [logger.exec, receiver_call_fst, receiver_call_snd]

theorem exec_Shutdown {σ : Type} (l : logger σ) (env : Env σ) :
    l.exec Op.Shutdown env =
      { l := l
        ret := some (l.Shutdown env).ret
        env := (l.Shutdown env).env
        trace := (l.Shutdown env).trace } := by
  simp only [logger.exec, receiver_Shutdown_fst, receiver_Shutdown_snd]

theorem exec_l {σ : Type} (l : logger σ) (op : Op) (env : Env σ) : (l.exec op env).l = l := by
  cases op with
  | log c => rw [exec_log]
  | Shutdown => rw [exec_Shutdown]

theorem execAll_cons {σ : Type} (l : logger σ) (op : Op) (ops : List Op) (env : Env σ) :
    l.execAll (op :: ops) env =
      (((l.exec op env).l.execAll ops (l.exec op env).env).1,
        ((l.exec op env).l.execAll ops (l.exec op env).env).2.1,
        ((l.exec op env).ret, (l.exec op env).trace) ::
          ((l.exec op env).l.execAll ops (l.exec op env).env).2.2) := rfl

theorem execAll_l {σ : Type} (l : logger σ) (ops : List Op) :
    ∀ env : Env σ, (l.execAll ops env).1 = l := by
  induction ops with
  | nil => intro env; rfl
  | cons op ops ih =>
    intro env
    rw [execAll_cons, exec_l]
    exact ih _

theorem log_congr {σ : Type} (l1 l2 : logger σ) (hs : l1.sinks = l2.sinks)
    (h1 : l1.cfg.Service = l2.cfg.Service) (h2 : l1.cfg.Env = l2.cfg.Env)
    (h3 : l1.cfg.MinLevel = l2.cfg.MinLevel) (level : Level) (msg : String) (fields : Fields)
    (now : time.Time) (env : Env σ) :
    l1.log level msg fields now env = l2.log level msg fields now env := by
  unfold logger.log
  rw [hs, h1, h2, h3]

theorem Shutdown_congr {σ : Type} (l1 l2 : logger σ) (hs : l1.sinks = l2.sinks) (env : Env σ) :
    l1.Shutdown env = l2.Shutdown env := by
  unfold logger.Shutdown
  rw [hs]

theorem exec_congr {σ : Type} (l1 l2 : logger σ) (hs : l1.sinks = l2.sinks)
    (h1 : l1.cfg.Service = l2.cfg.Service) (h2 : l1.cfg.Env = l2.cfg.Env)
    (h3 : l1.cfg.MinLevel = l2.cfg.MinLevel) (op : Op) (env : Env σ) :
    (l1.exec op env).ret = (l2.exec op env).ret ∧
    (l1.exec op env).env = (l2.exec op env).env ∧
    (l1.exec op env).trace = (l2.exec op env).trace := by
  cases op with
  | log c =>
    have h := log_congr l1 l2 hs h1 h2 h3 c.method.level c.msg c.fields c.now env
    rw [exec_log, exec_log, call_eq_log, call_eq_log, h]
    exact ⟨rfl, rfl, rfl⟩
  | Shutdown =>
    have h := Shutdown_congr l1 l2 hs env
    rw [exec_Shutdown, exec_Shutdown, h]
    exact ⟨rfl, rfl, rfl⟩

theorem execAll_congr {σ : Type} (l1 l2 : logger σ) (hs : l1.sinks = l2.sinks)
    (h1 : l1.cfg.Service = l2.cfg.Service) (h2 : l1.cfg.Env = l2.cfg.Env)
    (h3 : l1.cfg.MinLevel = l2.cfg.MinLevel) (ops : List Op) :
    ∀ env : Env σ, (l1.execAll ops env).2 = (l2.execAll ops env).2 := by
  induction ops with
  | nil => intro env; rfl
  | cons op ops ih =>
    intro env
    obtain ⟨e1, e2, e3⟩ := exec_congr l1 l2 hs h1 h2 h3 op env
    rw [execAll_cons, execAll_cons, exec_l, exec_l, e1, e2, e3]
    simp only [ih]

theorem log_accepted_level {σ : Type} (l : logger σ) (level : Level) (msg : String)
    (fields : Fields) (now : time.Time) (env : Env σ) (h : l.cfg.MinLevel ≤ level) :
    l.log level msg fields now env =
      { ret := ()
        env := (logger.writeLoop ⟨now, level, l.cfg.Service, l.cfg.Env, msg, fields⟩
          l.sinks 0 env).1
        trace := (logger.writeLoop ⟨now, level, l.cfg.Service, l.cfg.Env, msg, fields⟩
          l.sinks 0 env).2 } := by
  unfold logger.log
  rw [if_neg (not_lt.mpr h)]

theorem call_accepted_writesTo {σ : Type} (cfg : Config) (sinks : List (Sink σ)) (m : Method)
    (msg : String) (fields : Fields) (now : time.Time) (env : Env σ)
    (h : cfg.MinLevel ≤ m.level) (i : Nat) (hi : i < sinks.length) :
    writesTo i ((New cfg sinks).call m msg fields now env).trace =
      [{ Time := now
         Level := m.level
         Service := if cfg.Service = "" then "unknown" else cfg.Service
         Env := if cfg.Env = "" then "development" else cfg.Env
         Message := msg
         Fields := fields }] := by
  have hacc : (New cfg sinks).cfg.MinLevel ≤ m.level := by rw [New_MinLevel]; exact h
  rw [log_accepted _ _ _ _ _ _ hacc, New_sinks, New_eventOf]
  simp only [writeLoop_writesTo]
  rw [if_pos ⟨Nat.zero_le _, by omega⟩]

theorem call_accepted_writeCalls {σ : Type} (cfg : Config) (sinks : List (Sink σ)) (m : Method)
    (msg : String) (fields : Fields) (now : time.Time) (env : Env σ)
    (h : cfg.MinLevel ≤ m.level) :
    writeCalls ((New cfg sinks).call m msg fields now env).trace =
      (List.range sinks.length).map (fun i => (i,
        ({ Time := now
           Level := m.level
           Service := if cfg.Service = "" then "unknown" else cfg.Service
           Env := if cfg.Env = "" then "development" else cfg.Env
           Message := msg
           Fields := fields } : Event))) := by
  have hacc : (New cfg sinks).cfg.MinLevel ≤ m.level := by rw [New_MinLevel]; exact h
  rw [log_accepted _ _ _ _ _ _ hacc, New_sinks, New_eventOf, writeLoop_writeCalls,
    List.range_eq_range']

theorem call_filtered {σ : Type} (cfg : Config) (sinks : List (Sink σ)) (m : Method)
    (msg : String) (fields : Fields) (now : time.Time) (env : Env σ)
    (h : m.level < cfg.MinLevel) :
    (New cfg sinks).call m msg fields now env = { ret := (), env := env, trace := [] } := by
  apply log_filtered
  rw [New_MinLevel]
  exact h

theorem run_all_filtered {σ : Type} (cfg : Config) (sinks : List (Sink σ))
    (h : ErrorLevel < cfg.MinLevel) (calls : List LogCall) :
    ∀ env : Env σ, (New cfg sinks).run calls env = (env, []) := by
  induction calls with
  | nil => intro env; rfl
  | cons c cs ih =>
    intro env
    have hlt : c.method.level < cfg.MinLevel := by
      have : c.method.level ≤ ErrorLevel := by cases c.method <;> decide
      exact lt_of_le_of_lt this h
    simp only [logger.run]
    rw [call_filtered cfg sinks _ _ _ _ _ hlt, ih]
    rfl

theorem text_append (a b : List String) : fmt.text (a ++ b) = fmt.text a ++ fmt.text b := by
  induction a with
  | nil => simp [fmt.text]
  | cons x xs ih => simp [fmt.text, ih, String.append_assoc]

theorem printFields_stdout {σ : Type} (kvs : List (String × Any)) :
    ∀ env : Env σ,
      (ConsoleSink.printFields kvs env).stdout
        = env.stdout ++ kvs.map (fun kv => " " ++ kv.1 ++ "=" ++ kv.2.formatV) ∧
      (ConsoleSink.printFields kvs env).heap = env.heap := by
  induction kvs with
  | nil => intro env; simp [ConsoleSink.printFields]
  | cons kv rest ih =>
    intro env
    obtain ⟨k, v⟩ := kv
    simp only [ConsoleSink.printFields]
    obtain ⟨h1, h2⟩ := ih (fmt.Printf (" " ++ k ++ "=" ++ v.formatV) env)
    rw [h1, h2]
    simp [fmt.Printf]

theorem writePretty_stdout {σ : Type} (lib : Lib σ) (c : ConsoleSink) (e : Event)
    (env : Env σ) :
    (c.writePretty lib e env).2.stdout =
      env.stdout ++
        ([("[" ++ lib.Format e.Time "15:04:05" ++ "] " ++ e.Level.String ++ " | " ++ e.Service
            ++ " | " ++ e.Message)] ++
          (if Fields.len e.Fields > 0 then
            " |" :: (Fields.entries e.Fields).map (fun kv => " " ++ kv.1 ++ "=" ++ kv.2.formatV)
           else []) ++ ["\n"]) := by
  unfold ConsoleSink.writePretty
  by_cases h : Fields.len e.Fields > 0
  · simp only [if_pos h, fmt.Println, (printFields_stdout _ _).1, fmt.Print, fmt.Printf]
    simp
  · simp only [if_neg h, fmt.Println, fmt.Printf]
    simp

theorem Shutdown_env {σ : Type} (l : logger σ) (env : Env σ) :
    (l.Shutdown env).env = (logger.closeLoop l.sinks 0 [] env).2.1 := by
  unfold logger.Shutdown
  split
  rename_i heq
  rw [heq]
  split <;> rfl

theorem closeLoop_closeRets {σ : Type} (sinks : List (Sink σ)) :
    ∀ (i : Nat) (errs : List String) (env : Env σ),
      closeRets (logger.closeLoop sinks i errs env).2.2 = closeResults sinks env := by
  induction sinks with
  | nil => intro i errs env; rfl
  | cons s rest ih =>
    intro i errs env
    rcases hc : s.Close env with ⟨err, env1⟩
    rw [closeLoop_cons s rest i errs env env1 err hc]
    simp only [closeRets, closeResults, hc, ih]

theorem closeFailures_filterMap (tr : List Action) :
    closeFailures tr = (closeRets tr).filterMap id := by
  induction tr with
  | nil => rfl
  | cons a tr ih =>
    cases a with
    | Write k e r => simpa [closeFailures, closeRets] using ih
    | Printf out => simpa [closeFailures, closeRets] using ih
    | Close k r =>
      cases r with
      | none => simpa [closeFailures, closeRets] using ih
      | some t => simp [closeFailures, closeRets, ih]

theorem writeLoop_writeRets {σ : Type} (ev : Event) (sinks : List (Sink σ)) :
    ∀ (i : Nat) (env : Env σ),
      writeRets (logger.writeLoop ev sinks i env).2 = writeResults ev sinks env := by
  induction sinks with
  | nil => intro i env; rfl
  | cons s rest ih =>
    intro i env
    rcases hw : s.Write ev env with ⟨err, env1⟩
    cases err with
    | none =>
      rw [writeLoop_cons_none ev s rest i env env1 hw]
      simp only [writeRets, writeResults, hw, ih]
    | some e =>
      rw [writeLoop_cons_some ev s rest i env env1 e hw]
      simp only [writeRets, writeResults, hw, ih]

theorem Shutdown_closeRets {σ : Type} (l : logger σ) (env : Env σ) :
    closeRets (l.Shutdown env).trace = closeResults l.sinks env := by
  rw [Shutdown_trace, closeLoop_closeRets]

theorem Shutdown_closeFailures {σ : Type} (l : logger σ) (env : Env σ) :
    closeFailures (l.Shutdown env).trace = (closeResults l.sinks env).filterMap id := by
  rw [closeFailures_filterMap, Shutdown_closeRets]

theorem Shutdown_ret_results {σ : Type} (l : logger σ) (env : Env σ) :
    (l.Shutdown env).ret =
      if ((closeResults l.sinks env).filterMap id).length > 0
      then fmt.Errorf ((closeResults l.sinks env).filterMap id) else none := by
  rw [Shutdown_ret, Shutdown_closeFailures]

theorem Shutdown_ret_of_failure {σ : Type} (l : logger σ) (env : Env σ)
    (h : ∃ t, some t ∈ closeResults l.sinks env) :
    (l.Shutdown env).ret =
      some ("shutdown errors: " ++
        ("[" ++ fmt.joinSpace ((closeResults l.sinks env).filterMap id) ++ "]")) := by
  obtain ⟨t, ht⟩ := h
  have hmem : t ∈ (closeResults l.sinks env).filterMap id :=
    List.mem_filterMap.mpr ⟨some t, ht, rfl⟩
  rw [Shutdown_ret_results, if_pos (List.length_pos_of_mem hmem)]
  rfl

theorem Shutdown_ret_none_iff {σ : Type} (l : logger σ) (env : Env σ) :
    (l.Shutdown env).ret = none ↔ ∀ r ∈ closeResults l.sinks env, r = none := by
  constructor
  · intro h r hr
    cases r with
    | none => rfl
    | some t =>
      rw [Shutdown_ret_of_failure l env ⟨t, hr⟩] at h
      simp at h
  · intro h
    have hnil : (closeResults l.sinks env).filterMap id = [] := by
      apply List.eq_nil_iff_forall_not_mem.mpr
      intro t ht
      obtain ⟨r, hr, hrt⟩ := List.mem_filterMap.mp ht
      have := h r hr
      subst this
      simp at hrt
    rw [Shutdown_ret_results, hnil]
    rfl

theorem writeLoop_spies_heap (ev : Event) (werr cerr : Nat → error) (ids : List Nat) :
    ∀ (i : Nat) (env0 : Env (List SpyCall)),
      (logger.writeLoop ev (spies ids werr cerr) i env0).1.heap
        = env0.heap ++ ids.map (fun id => SpyCall.Write id ev) := by
  induction ids with
  | nil => intro i env0; simp [spies, logger.writeLoop]
  | cons id rest ih =>
    intro i env0
    have hcons : spies (id :: rest) werr cerr
        = spy id (werr id) (cerr id) :: spies rest werr cerr := rfl
    rw [hcons]
    cases hw : werr id with
    | none =>
      rw [writeLoop_cons_none ev _ _ i env0
        { env0 with heap := env0.heap ++ [SpyCall.Write id ev] } (by simp [spy, hw])]
      show (logger.writeLoop ev (spies rest werr cerr) (i + 1) _).1.heap = _
      rw [ih]
      simp
    | some e =>
      rw [writeLoop_cons_some ev _ _ i env0
        { env0 with heap := env0.heap ++ [SpyCall.Write id ev] } e (by simp [spy, hw])]
      show (logger.writeLoop ev (spies rest werr cerr) (i + 1) _).1.heap = _
      rw [ih]
      simp [fmt.Printf]

theorem closeLoop_spies_heap (werr cerr : Nat → error) (ids : List Nat) :
    ∀ (i : Nat) (errs : List String) (env0 : Env (List SpyCall)),
      (logger.closeLoop (spies ids werr cerr) i errs env0).2.1.heap
        = env0.heap ++ ids.map SpyCall.Close := by
  induction ids with
  | nil => intro i errs env0; simp [spies, logger.closeLoop]
  | cons id rest ih =>
    intro i errs env0
    have hcons : spies (id :: rest) werr cerr
        = spy id (werr id) (cerr id) :: spies rest werr cerr := rfl
    rw [hcons, closeLoop_cons _ _ i errs env0
      { env0 with heap := env0.heap ++ [SpyCall.Close id] } (cerr id) (by simp [spy])]
    show (logger.closeLoop (spies rest werr cerr) (i + 1) _ _).2.1.heap = _
    rw [ih]
    simp

theorem closeResults_spies (werr cerr : Nat → error) (ids : List Nat) :
    ∀ env0 : Env (List SpyCall), closeResults (spies ids werr cerr) env0 = ids.map cerr := by
  induction ids with
  | nil => intro env0; rfl
  | cons id rest ih =>
    intro env0
    have hcons : spies (id :: rest) werr cerr
        = spy id (werr id) (cerr id) :: spies rest werr cerr := rfl
    rw [hcons]
    simp only [closeResults, List.map_cons]
    rw [ih]
    rfl

theorem filterMap_id_map (cerr : Nat → error) (ids : List Nat) :
    (ids.map cerr).filterMap id = ids.filterMap cerr := by
  induction ids with
  | nil => rfl
  | cons a rest ih =>
    cases h : cerr a <;> simp [List.filterMap_cons, h, ih]

/-! ## Claims -/

/-- C1. Threshold filter: when the level of the invoked operation is below the
configured minimum, the call makes no `Write` on any sink, prints nothing and
leaves the environment as it was. -/
theorem threshold_filter {σ : Type} (cfg : Config) (sinks : List (Sink σ)) (m : Method)
    (msg : String) (fields : Fields) (now : time.Time) (env : Env σ)
    (h : m.level < cfg.MinLevel) :
    ((New cfg sinks).call m msg fields now env).trace = [] ∧
    ((New cfg sinks).call m msg fields now env).env = env ∧
    ∀ i, (writesTo i ((New cfg sinks).call m msg fields now env).trace).length = 0 := by
  have hlog : (New cfg sinks).call m msg fields now env
      = { ret := (), env := env, trace := [] } := by
    rw [call_eq_log]
    unfold logger.log
    rw [New_MinLevel, if_pos h]
  rw [hlog]
  exact ⟨rfl, rfl, fun _ => rfl⟩

/-- Witness of C1: minimum Warn, recording sinks A and B, `Info("x", nil)`:
neither sink has recorded a call. -/
theorem threshold_filter_witness :
    Method.Info.level < (Config.mk "svc" "prod" WarnLevel false).MinLevel ∧
    ((New (Config.mk "svc" "prod" WarnLevel false) [spy 0 none none, spy 1 none none]).call
        Method.Info "x" none ⟨0⟩ Env.empty).trace = [] ∧
    ((New (Config.mk "svc" "prod" WarnLevel false) [spy 0 none none, spy 1 none none]).call
        Method.Info "x" none ⟨0⟩ Env.empty).env = Env.empty ∧
    ∀ i, (writesTo i ((New (Config.mk "svc" "prod" WarnLevel false)
        [spy 0 none none, spy 1 none none]).call
        Method.Info "x" none ⟨0⟩ Env.empty).trace).length = 0 :=
  ⟨by decide, threshold_filter _ _ _ _ _ _ _ (by decide)⟩

/-- C2. Accepted delivery: when the level of the invoked operation is at least
the configured minimum (equality included), every registered sink receives
exactly one `Write`, all with the same event, whose level is that of the
operation, whose message and fields are the arguments of the call and whose
service and environment are the defaulted configuration; no `Write` goes to a
position outside the list. -/
theorem accepted_delivery {σ : Type} (cfg : Config) (sinks : List (Sink σ)) (m : Method)
    (msg : String) (fields : Fields) (now : time.Time) (env : Env σ)
    (h : cfg.MinLevel ≤ m.level) :
    (∀ i, i < sinks.length →
      writesTo i ((New cfg sinks).call m msg fields now env).trace =
        [{ Time := now
           Level := m.level
           Service := if cfg.Service = "" then "unknown" else cfg.Service
           Env := if cfg.Env = "" then "development" else cfg.Env
           Message := msg
           Fields := fields }]) ∧
    (∀ i, sinks.length ≤ i →
      writesTo i ((New cfg sinks).call m msg fields now env).trace = []) := by
  have hacc : (New cfg sinks).cfg.MinLevel ≤ m.level := by rw [New_MinLevel]; exact h
  rw [log_accepted _ _ _ _ _ _ hacc, New_sinks, New_eventOf]
  constructor
  · intro i hi
    simp only [writeLoop_writesTo]
    rw [if_pos ⟨Nat.zero_le _, by omega⟩]
  · intro i hi
    simp only [writeLoop_writesTo]
    rw [if_neg (by omega)]

/-- Witness of C2: minimum Warn, recording sinks A and B, `Error("y", {"k":"v"})`:
A and B each receive one `Write` with level Error, message "y" and fields
`{"k":"v"}`, and that is what the two sinks recorded. -/
theorem accepted_delivery_witness :
    cfgWarn.MinLevel ≤ Method.Error.level ∧
    ((∀ i, i < sinksAB.length →
      writesTo i ((New cfgWarn sinksAB).call Method.Error "y" fieldsKV ⟨7⟩ Env.empty).trace =
        [{ Time := ⟨7⟩
           Level := Method.Error.level
           Service := if cfgWarn.Service = "" then "unknown" else cfgWarn.Service
           Env := if cfgWarn.Env = "" then "development" else cfgWarn.Env
           Message := "y"
           Fields := fieldsKV }]) ∧
    (∀ i, sinksAB.length ≤ i →
      writesTo i ((New cfgWarn sinksAB).call Method.Error "y" fieldsKV ⟨7⟩ Env.empty).trace
        = [])) ∧
    ((New cfgWarn sinksAB).call Method.Error "y" fieldsKV ⟨7⟩ Env.empty).env.heap =
      [SpyCall.Write 0 ⟨⟨7⟩, ErrorLevel, "svc", "prod", "y", fieldsKV⟩,
       SpyCall.Write 1 ⟨⟨7⟩, ErrorLevel, "svc", "prod", "y", fieldsKV⟩] :=
  ⟨by decide, accepted_delivery cfgWarn sinksAB Method.Error "y" fieldsKV ⟨7⟩ Env.empty
    (by decide), by decide⟩

/-- C3. Registration order: the logger keeps the sinks in the order given to
`New`; in one accepted log call the k-th `Write` is made on the k-th sink of
that list (it returns what that sink returns in the environment left by the
sinks before it), and in `Shutdown` the k-th `Close` is made on the k-th sink
of the list; recording sinks of any number and naming record the `Write`
calls, and the `Close` calls, in the order they were passed to `New`. -/
theorem registration_order {σ : Type} (cfg : Config) (sinks : List (Sink σ)) (m : Method)
    (msg : String) (fields : Fields) (now : time.Time) (env env' : Env σ)
    (h : cfg.MinLevel ≤ m.level) :
    (New cfg sinks).sinks = sinks ∧
    (writeCalls ((New cfg sinks).call m msg fields now env).trace).map Prod.fst
      = List.range sinks.length ∧
    closeCalls ((New cfg sinks).Shutdown env').trace = List.range sinks.length ∧
    writeRets ((New cfg sinks).call m msg fields now env).trace =
      writeResults
        { Time := now
          Level := m.level
          Service := if cfg.Service = "" then "unknown" else cfg.Service
          Env := if cfg.Env = "" then "development" else cfg.Env
          Message := msg
          Fields := fields } sinks env ∧
    closeRets ((New cfg sinks).Shutdown env').trace = closeResults sinks env' ∧
    (∀ (ids : List Nat) (werr cerr : Nat → error) (env0 : Env (List SpyCall)),
      ((New cfg (spies ids werr cerr)).call m msg fields now env0).env.heap =
        env0.heap ++ ids.map (fun id => SpyCall.Write id
          { Time := now
            Level := m.level
            Service := if cfg.Service = "" then "unknown" else cfg.Service
            Env := if cfg.Env = "" then "development" else cfg.Env
            Message := msg
            Fields := fields }) ∧
      ((New cfg (spies ids werr cerr)).Shutdown env0).env.heap =
        env0.heap ++ ids.map SpyCall.Close) := by
  have hacc : (New cfg sinks).cfg.MinLevel ≤ m.level := by rw [New_MinLevel]; exact h
  refine ⟨rfl, ?_, ?_, ?_, ?_, ?_⟩
  · rw [log_accepted _ _ _ _ _ _ hacc, New_sinks]
    simp only [writeLoop_writeCalls, List.map_map, List.range_eq_range']
    exact List.map_id _
  · rw [Shutdown_trace, New_sinks, closeLoop_closeCalls, List.range_eq_range']
  · rw [log_accepted _ _ _ _ _ _ hacc, New_sinks, New_eventOf]
    exact writeLoop_writeRets _ _ _ _
  · rw [Shutdown_closeRets, New_sinks]
  · intro ids werr cerr env0
    have hacc' : (New cfg (spies ids werr cerr)).cfg.MinLevel ≤ m.level := by
      rw [New_MinLevel]; exact h
    constructor
    · rw [log_accepted _ _ _ _ _ _ hacc', New_sinks, New_eventOf]
      exact writeLoop_spies_heap _ _ _ _ _ _
    · rw [Shutdown_env, New_sinks]
      exact closeLoop_spies_heap _ _ _ _ _ _

/-- Witness of C3: recording sinks registered in the order C, A, B under
minimum Warn: `Error("y", nil)` is recorded by C, then A, then B, with C's
failure as the first return value; `Shutdown` is recorded by C, then A, then
B, with the failures of C and B as first and third return value. -/
theorem registration_order_witness :
    cfgWarn.MinLevel ≤ Method.Error.level ∧
    ((New cfgWarn sinksCAB).sinks = sinksCAB ∧
      (writeCalls ((New cfgWarn sinksCAB).call Method.Error "y" none ⟨7⟩ Env.empty).trace).map
        Prod.fst = List.range sinksCAB.length ∧
      closeCalls ((New cfgWarn sinksCAB).Shutdown Env.empty).trace
        = List.range sinksCAB.length) ∧
    ((New cfgWarn sinksCAB).call Method.Error "y" none ⟨7⟩ Env.empty).env.heap =
      [SpyCall.Write 2 ⟨⟨7⟩, ErrorLevel, "svc", "prod", "y", none⟩,
       SpyCall.Write 0 ⟨⟨7⟩, ErrorLevel, "svc", "prod", "y", none⟩,
       SpyCall.Write 1 ⟨⟨7⟩, ErrorLevel, "svc", "prod", "y", none⟩] ∧
    writeRets ((New cfgWarn sinksCAB).call Method.Error "y" none ⟨7⟩ Env.empty).trace
      = [some "c down", none, none] ∧
    ((New cfgWarn sinksCAB).Shutdown Env.empty).env.heap
      = [SpyCall.Close 2, SpyCall.Close 0, SpyCall.Close 1] ∧
    closeRets ((New cfgWarn sinksCAB).Shutdown Env.empty).trace
      = [some "c stuck", none, some "b stuck"] :=
  ⟨by decide,
    ⟨(registration_order cfgWarn sinksCAB Method.Error "y" none ⟨7⟩ Env.empty Env.empty
        (by decide)).1,
      (registration_order cfgWarn sinksCAB Method.Error "y" none ⟨7⟩ Env.empty Env.empty
        (by decide)).2.1,
      (registration_order cfgWarn sinksCAB Method.Error "y" none ⟨7⟩ Env.empty Env.empty
        (by decide)).2.2.1⟩,
    by decide, by decide, by decide, by decide⟩

/-- C4. Write failures are isolated: in an accepted log call, when `Write` on
the sink at position `i` returned an error, every later registered sink `j` is
still written the same event; and the sequence of `Write` calls (position and
event) is the same for any other sinks of the same number in any environment,
whatever their `Write` calls return. -/
theorem write_failures_isolated {σ τ : Type} (cfg : Config) (sinks : List (Sink σ)) (m : Method)
    (msg : String) (fields : Fields) (now : time.Time) (env : Env σ)
    (h : cfg.MinLevel ≤ m.level) :
    (∀ i j e t, Action.Write i e (some t) ∈ ((New cfg sinks).call m msg fields now env).trace →
      i < j → j < sinks.length →
      ∃ r, Action.Write j e r ∈ ((New cfg sinks).call m msg fields now env).trace) ∧
    (∀ (sinks' : List (Sink τ)) (env' : Env τ), sinks'.length = sinks.length →
      writeCalls ((New cfg sinks').call m msg fields now env').trace
        = writeCalls ((New cfg sinks).call m msg fields now env).trace) := by
  have hacc : (New cfg sinks).cfg.MinLevel ≤ m.level := by rw [New_MinLevel]; exact h
  constructor
  · intro i j e t hmem hij hj
    rw [log_accepted _ _ _ _ _ _ hacc, New_sinks] at hmem ⊢
    have he := writeLoop_event _ _ _ _ _ _ _ hmem
    subst he
    exact writeLoop_mem _ sinks j 0 env (Nat.zero_le _) (by omega)
  · intro sinks' env' hlen
    have hacc' : (New cfg sinks').cfg.MinLevel ≤ m.level := by rw [New_MinLevel]; exact h
    rw [log_accepted _ _ _ _ _ _ hacc, log_accepted _ _ _ _ _ _ hacc', New_sinks, New_sinks,
      New_eventOf, New_eventOf]
    simp only [writeLoop_writeCalls, hlen]

/-- Witness of C4: A's `Write` fails with "boom" and B is still written the
event; both sinks recorded their `Write`. -/
theorem write_failures_isolated_witness :
    cfgWarn.MinLevel ≤ Method.Error.level ∧
    ((∀ i j e t, Action.Write i e (some t) ∈
        ((New cfgWarn sinksFailA).call Method.Error "y" none ⟨7⟩ Env.empty).trace →
      i < j → j < sinksFailA.length →
      ∃ r, Action.Write j e r ∈
        ((New cfgWarn sinksFailA).call Method.Error "y" none ⟨7⟩ Env.empty).trace) ∧
    (∀ (sinks' : List (Sink (List SpyCall))) (env' : Env (List SpyCall)),
      sinks'.length = sinksFailA.length →
      writeCalls ((New cfgWarn sinks').call Method.Error "y" none ⟨7⟩ env').trace
        = writeCalls ((New cfgWarn sinksFailA).call Method.Error "y" none ⟨7⟩ Env.empty).trace)) ∧
    ((New cfgWarn sinksFailA).call Method.Error "y" none ⟨7⟩ Env.empty).trace =
      [Action.Write 0 ⟨⟨7⟩, ErrorLevel, "svc", "prod", "y", none⟩ (some "boom"),
       Action.Printf "sink error: boom\n",
       Action.Write 1 ⟨⟨7⟩, ErrorLevel, "svc", "prod", "y", none⟩ none] ∧
    ((New cfgWarn sinksFailA).call Method.Error "y" none ⟨7⟩ Env.empty).env.heap =
      [SpyCall.Write 0 ⟨⟨7⟩, ErrorLevel, "svc", "prod", "y", none⟩,
       SpyCall.Write 1 ⟨⟨7⟩, ErrorLevel, "svc", "prod", "y", none⟩] :=
  ⟨by decide,
    @write_failures_isolated (List SpyCall) (List SpyCall) cfgWarn sinksFailA Method.Error "y"
      none ⟨7⟩ Env.empty (by decide),
    by decide, by decide⟩

/-- C5. Close failures are isolated: one `Shutdown` calls `Close` on the
registered sinks at positions 0, 1, ..., N-1, each exactly once and no other,
whatever the `Close` calls return; in particular a failing `Close` at position
`i` is followed by a `Close` on every later sink. -/
theorem close_failures_isolated {σ : Type} (cfg : Config) (sinks : List (Sink σ))
    (env : Env σ) :
    closeCalls ((New cfg sinks).Shutdown env).trace = List.range sinks.length ∧
    (∀ i, i < sinks.length → (closeCalls ((New cfg sinks).Shutdown env).trace).count i = 1) ∧
    (∀ i, sinks.length ≤ i → (closeCalls ((New cfg sinks).Shutdown env).trace).count i = 0) ∧
    (∀ i j t, Action.Close i (some t) ∈ ((New cfg sinks).Shutdown env).trace →
      i < j → j < sinks.length →
      ∃ r, Action.Close j r ∈ ((New cfg sinks).Shutdown env).trace) := by
  have hc : closeCalls ((New cfg sinks).Shutdown env).trace = List.range sinks.length := by
    rw [Shutdown_trace, New_sinks, closeLoop_closeCalls, List.range_eq_range']
  refine ⟨hc, ?_, ?_, ?_⟩
  · intro i hi
    rw [hc]
    exact List.count_eq_one_of_mem (List.nodup_range _) (List.mem_range.mpr hi)
  · intro i hi
    rw [hc]
    exact List.count_eq_zero_of_not_mem (by simp [List.mem_range]; omega)
  · intro i j t _ _ hj
    rw [← mem_closeCalls, hc]
    exact List.mem_range.mpr hj

/-- Witness of C5: A's `Close` fails with "disk full"; `Shutdown` still closes
B, and each sink recorded exactly one `Close`. -/
theorem close_failures_isolated_witness :
    Action.Close 0 (some "disk full") ∈ ((New cfgWarn sinksFailA).Shutdown Env.empty).trace ∧
    (∃ r, Action.Close 1 r ∈ ((New cfgWarn sinksFailA).Shutdown Env.empty).trace) ∧
    ((New cfgWarn sinksFailA).Shutdown Env.empty).env.heap
      = [SpyCall.Close 0, SpyCall.Close 1] :=
  ⟨by decide,
    (close_failures_isolated cfgWarn sinksFailA Env.empty).2.2.2 0 1 "disk full"
      (by decide) (by decide) (by decide),
    by decide⟩

/-- C6. Aggregated shutdown failure: when the `Close` of at least one registered
sink fails, `Shutdown` closes every sink of the list, in order, and returns the
error whose text is "shutdown errors: " followed by the `%v` rendering of the
list of all `Close` errors, one per failing sink and in registration order, so
the text of every failing sink (not only the first) occurs in it. -/
theorem shutdown_aggregates {σ : Type} (cfg : Config) (sinks : List (Sink σ)) (env : Env σ)
    (h : ∃ t, some t ∈ closeResults sinks env) :
    ((New cfg sinks).Shutdown env).ret =
      some ("shutdown errors: " ++
        ("[" ++ fmt.joinSpace ((closeResults sinks env).filterMap id) ++ "]")) ∧
    closeRets ((New cfg sinks).Shutdown env).trace = closeResults sinks env ∧
    closeCalls ((New cfg sinks).Shutdown env).trace = List.range sinks.length ∧
    closeFailures ((New cfg sinks).Shutdown env).trace
      = (closeResults sinks env).filterMap id ∧
    (∀ t, some t ∈ closeResults sinks env →
      occursIn t ("shutdown errors: " ++
        ("[" ++ fmt.joinSpace ((closeResults sinks env).filterMap id) ++ "]"))) ∧
    (∀ i t, Action.Close i (some t) ∈ ((New cfg sinks).Shutdown env).trace →
      occursIn t ("shutdown errors: " ++
        ("[" ++ fmt.joinSpace (closeFailures ((New cfg sinks).Shutdown env).trace) ++ "]"))) ∧
    (∀ (ids : List Nat) (werr cerr : Nat → error) (env0 : Env (List SpyCall)),
      (∃ id ∈ ids, ∃ t, cerr id = some t) →
      ((New cfg (spies ids werr cerr)).Shutdown env0).ret =
        some ("shutdown errors: " ++ ("[" ++ fmt.joinSpace (ids.filterMap cerr) ++ "]"))) := by
  refine ⟨?_, ?_, ?_, ?_, ?_, ?_, ?_⟩
  · exact Shutdown_ret_of_failure (New cfg sinks) env h
  · rw [Shutdown_closeRets, New_sinks]
  · rw [Shutdown_trace, New_sinks, closeLoop_closeCalls, List.range_eq_range']
  · rw [Shutdown_closeFailures, New_sinks]
  · intro t ht
    exact occursIn_Errorf _ t (List.mem_filterMap.mpr ⟨some t, ht, rfl⟩)
  · intro i t hmem
    exact occursIn_Errorf _ t ((mem_closeFailures _ t).mpr ⟨i, hmem⟩)
  · intro ids werr cerr env0 hfail
    obtain ⟨id0, hid, t, ht⟩ := hfail
    have hres : ∃ t, some t ∈ closeResults (New cfg (spies ids werr cerr)).sinks env0 := by
      refine ⟨t, ?_⟩
      rw [New_sinks, closeResults_spies]
      exact List.mem_map.mpr ⟨id0, hid, ht⟩
    rw [Shutdown_ret_of_failure _ env0 hres, New_sinks, closeResults_spies, filterMap_id_map]

/-- Witness of C6: of the sinks C, A, B the `Close` of C fails with "c stuck",
that of A succeeds and that of B fails with "b stuck": `Shutdown` closes all
three and returns "shutdown errors: [c stuck b stuck]"; and one sink whose
`Close` returns "disk full" gives "shutdown errors: [disk full]". -/
theorem shutdown_aggregates_witness :
    (∃ t, some t ∈ closeResults sinksCAB Env.empty) ∧
    ((New cfgWarn sinksCAB).Shutdown Env.empty).ret =
      some ("shutdown errors: " ++
        ("[" ++ fmt.joinSpace ((closeResults sinksCAB Env.empty).filterMap id) ++ "]")) ∧
    ((New cfgWarn sinksCAB).Shutdown Env.empty).ret
      = some "shutdown errors: [c stuck b stuck]" ∧
    ((New cfgWarn sinksCAB).Shutdown Env.empty).env.heap
      = [SpyCall.Close 2, SpyCall.Close 0, SpyCall.Close 1] ∧
    ((New cfgWarn sinkDiskFull).Shutdown Env.empty).ret = some "shutdown errors: [disk full]" ∧
    occursIn "disk full" "shutdown errors: [disk full]" ∧
    ((New cfgWarn sinkDiskFull).Shutdown Env.empty).env.heap = [SpyCall.Close 0] :=
  ⟨⟨"c stuck", by decide⟩,
    (shutdown_aggregates cfgWarn sinksCAB Env.empty ⟨"c stuck", by decide⟩).1,
    by decide, by decide, by decide, ⟨"shutdown errors: [", "]", by decide⟩, by decide⟩

/-- C7. Shutdown succeeds exactly when no `Close` fails: it closes every sink of
the list, in order, and returns nil if and only if the `Close` of every
registered sink returned nil, a non-nil error if and only if the `Close` of
some registered sink returned an error; with no sinks it returns nil. -/
theorem shutdown_success_iff {σ : Type} (cfg : Config) (sinks : List (Sink σ)) (env : Env σ) :
    (((New cfg sinks).Shutdown env).ret = none ↔
      ∀ r ∈ closeResults sinks env, r = none) ∧
    (((New cfg sinks).Shutdown env).ret ≠ none ↔
      ∃ t, some t ∈ closeResults sinks env) ∧
    closeRets ((New cfg sinks).Shutdown env).trace = closeResults sinks env ∧
    closeCalls ((New cfg sinks).Shutdown env).trace = List.range sinks.length ∧
    (((New cfg sinks).Shutdown env).ret = none ↔
      ∀ i r, Action.Close i r ∈ ((New cfg sinks).Shutdown env).trace → r = none) ∧
    (((New cfg sinks).Shutdown env).ret ≠ none ↔
      ∃ i t, Action.Close i (some t) ∈ ((New cfg sinks).Shutdown env).trace) ∧
    ((New cfg ([] : List (Sink σ))).Shutdown env).ret = none ∧
    (∀ (ids : List Nat) (werr cerr : Nat → error) (env0 : Env (List SpyCall)),
      (((New cfg (spies ids werr cerr)).Shutdown env0).ret = none ↔
        ∀ id ∈ ids, cerr id = none) ∧
      ((New cfg (spies ids werr cerr)).Shutdown env0).env.heap
        = env0.heap ++ ids.map SpyCall.Close) := by
  have hnone := Shutdown_ret_none_iff (New cfg sinks) env
  rw [New_sinks] at hnone
  have hsome : ((New cfg sinks).Shutdown env).ret ≠ none ↔
      ∃ t, some t ∈ closeResults sinks env := by
    rw [Ne, hnone]
    constructor
    · intro hn
      by_contra hno
      apply hn
      intro r hr
      cases r with
      | none => rfl
      | some t => exact absurd ⟨t, hr⟩ hno
    · rintro ⟨t, ht⟩ hall
      have := hall (some t) ht
      simp at this
  have hret : ((New cfg sinks).Shutdown env).ret = none ↔
      closeFailures ((New cfg sinks).Shutdown env).trace = [] := by
    rw [Shutdown_ret]
    constructor
    · intro h
      by_contra hne
      rw [if_pos (List.length_pos.mpr hne)] at h
      simp [fmt.Errorf] at h
    · intro h
      rw [h]
      rfl
  refine ⟨hnone, hsome, ?_, ?_, ?_, ?_, rfl, ?_⟩
  · rw [Shutdown_closeRets, New_sinks]
  · rw [Shutdown_trace, New_sinks, closeLoop_closeCalls, List.range_eq_range']
  · rw [hret, closeFailures_eq_nil]
  · rw [Ne, hret, closeFailures_eq_nil]
    constructor
    · intro h
      by_contra hno
      apply h
      intro i r hmem
      cases r with
      | none => rfl
      | some t => exact absurd ⟨i, t, hmem⟩ hno
    · rintro ⟨i, t, hmem⟩ hall
      have := hall i (some t) hmem
      simp at this
  · intro ids werr cerr env0
    constructor
    · rw [Shutdown_ret_none_iff, New_sinks, closeResults_spies]
      constructor
      · intro hall id hid
        exact hall (cerr id) (List.mem_map.mpr ⟨id, hid, rfl⟩)
      · intro hall r hr
        obtain ⟨id, hid, hr'⟩ := List.mem_map.mp hr
        rw [← hr']
        exact hall id hid
    · rw [Shutdown_env, New_sinks]
      exact closeLoop_spies_heap _ _ _ _ _ _

/-- Witness of C7: two healthy sinks: `Shutdown` closes both and returns nil; a
healthy sink followed by one whose `Close` returns "disk full": `Shutdown`
closes both and returns a non-nil error. -/
theorem shutdown_success_iff_witness :
    (((New cfgWarn sinksAB).Shutdown Env.empty).ret = none ↔
      ∀ r ∈ closeResults sinksAB Env.empty, r = none) ∧
    ((New cfgWarn sinksAB).Shutdown Env.empty).ret = none ∧
    ((New cfgWarn sinksAB).Shutdown Env.empty).env.heap = [SpyCall.Close 0, SpyCall.Close 1] ∧
    ((New cfgWarn [spy 0 none none, spy 1 none (some "disk full")]).Shutdown Env.empty).ret
      = some "shutdown errors: [disk full]" ∧
    ((New cfgWarn [spy 0 none none, spy 1 none (some "disk full")]).Shutdown Env.empty).env.heap
      = [SpyCall.Close 0, SpyCall.Close 1] :=
  ⟨(shutdown_success_iff cfgWarn sinksAB Env.empty).1, by decide, by decide, by decide,
    by decide⟩

/-- C8. Configuration defaulting: `New` accepts every Config and stores
"unknown" for an empty service name and "development" for an empty
environment, the configured values otherwise; every event written to a sink
during any sequence of calls carries these values, and neither is empty. -/
theorem config_defaulting {σ : Type} (cfg : Config) (sinks : List (Sink σ))
    (calls : List LogCall) (env : Env σ) :
    (New cfg sinks).cfg.Service = (if cfg.Service = "" then "unknown" else cfg.Service) ∧
    (New cfg sinks).cfg.Env = (if cfg.Env = "" then "development" else cfg.Env) ∧
    (∀ i e r, Action.Write i e r ∈ ((New cfg sinks).run calls env).2 →
      e.Service = (if cfg.Service = "" then "unknown" else cfg.Service) ∧
      e.Env = (if cfg.Env = "" then "development" else cfg.Env) ∧
      e.Service ≠ "" ∧ e.Env ≠ "") := by
  refine ⟨New_Service cfg sinks, New_Env cfg sinks, ?_⟩
  intro i e r hmem
  obtain ⟨c, _, he⟩ := run_event _ _ _ _ _ _ hmem
  rw [New_eventOf] at he
  subst he
  refine ⟨rfl, rfl, ?_, ?_⟩
  · show (if cfg.Service = "" then "unknown" else cfg.Service) ≠ ""
    split
    · decide
    · assumption
  · show (if cfg.Env = "" then "development" else cfg.Env) ≠ ""
    split
    · decide
    · assumption

/-- Witness of C8: an empty Config: the event of `Info("x", nil)` reaches the
sink with service "unknown" and environment "development". -/
theorem config_defaulting_witness :
    Action.Write 0 ⟨⟨1⟩, InfoLevel, "unknown", "development", "x", none⟩ none ∈
      ((New (Config.mk "" "" DebugLevel false) sinksAB).run
        [⟨Method.Info, "x", none, ⟨1⟩⟩] Env.empty).2 ∧
    ((⟨⟨1⟩, InfoLevel, "unknown", "development", "x", none⟩ : Event).Service =
        (if (Config.mk "" "" DebugLevel false).Service = "" then "unknown"
          else (Config.mk "" "" DebugLevel false).Service) ∧
      (⟨⟨1⟩, InfoLevel, "unknown", "development", "x", none⟩ : Event).Env =
        (if (Config.mk "" "" DebugLevel false).Env = "" then "development"
          else (Config.mk "" "" DebugLevel false).Env) ∧
      (⟨⟨1⟩, InfoLevel, "unknown", "development", "x", none⟩ : Event).Service ≠ "" ∧
      (⟨⟨1⟩, InfoLevel, "unknown", "development", "x", none⟩ : Event).Env ≠ "") :=
  ⟨by decide,
    (config_defaulting (Config.mk "" "" DebugLevel false) sinksAB
      [⟨Method.Info, "x", none, ⟨1⟩⟩] Env.empty).2.2 0 _ none (by decide)⟩

/-- C9. A logging call has no return value, and it prints exactly one line
"sink error: <text>" for each `Write` that returned an error, in the order of
the calls, and nothing when no `Write` failed; when the sinks themselves leave
standard output alone, these lines are all that the call adds to it. -/
theorem write_failures_reported {σ : Type} (cfg : Config) (sinks : List (Sink σ)) (m : Method)
    (msg : String) (fields : Fields) (now : time.Time) (env : Env σ) :
    printed ((New cfg sinks).call m msg fields now env).trace
      = (writeFailures ((New cfg sinks).call m msg fields now env).trace).map
          (fun t => "sink error: " ++ t ++ "\n") ∧
    (writeFailures ((New cfg sinks).call m msg fields now env).trace = [] →
      printed ((New cfg sinks).call m msg fields now env).trace = []) ∧
    ((∀ s ∈ sinks, ∀ (e : Event) (env0 : Env σ), (s.Write e env0).2.stdout = env0.stdout) →
      ((New cfg sinks).call m msg fields now env).env.stdout
        = env.stdout ++ printed ((New cfg sinks).call m msg fields now env).trace) := by
  have hp : printed ((New cfg sinks).call m msg fields now env).trace
      = (writeFailures ((New cfg sinks).call m msg fields now env).trace).map
          (fun t => "sink error: " ++ t ++ "\n") := by
    by_cases hlt : m.level < (New cfg sinks).cfg.MinLevel
    · rw [log_filtered _ _ _ _ _ _ hlt]
      rfl
    · rw [log_accepted _ _ _ _ _ _ (not_lt.mp hlt)]
      exact writeLoop_printed _ _ _ _
  refine ⟨hp, ?_, ?_⟩
  · intro h
    rw [hp, h]
    rfl
  · intro hq
    by_cases hlt : m.level < (New cfg sinks).cfg.MinLevel
    · rw [log_filtered _ _ _ _ _ _ hlt]
      simp [printed]
    · rw [log_accepted _ _ _ _ _ _ (not_lt.mp hlt)]
      exact writeLoop_stdout _ _ _ _ hq

/-- Witness of C9: A's `Write` fails with "boom", B's succeeds: the call prints
the single line "sink error: boom"; with two healthy sinks it prints nothing. -/
theorem write_failures_reported_witness :
    (printed ((New cfgWarn sinksFailA).call Method.Error "y" none ⟨7⟩ Env.empty).trace
      = (writeFailures ((New cfgWarn sinksFailA).call Method.Error "y" none ⟨7⟩
          Env.empty).trace).map (fun t => "sink error: " ++ t ++ "\n") ∧
    (writeFailures ((New cfgWarn sinksFailA).call Method.Error "y" none ⟨7⟩
        Env.empty).trace = [] →
      printed ((New cfgWarn sinksFailA).call Method.Error "y" none ⟨7⟩ Env.empty).trace = []) ∧
    ((∀ s ∈ sinksFailA, ∀ (e : Event) (env0 : Env (List SpyCall)),
        (s.Write e env0).2.stdout = env0.stdout) →
      ((New cfgWarn sinksFailA).call Method.Error "y" none ⟨7⟩ Env.empty).env.stdout
        = Env.empty.stdout
          ++ printed ((New cfgWarn sinksFailA).call Method.Error "y" none ⟨7⟩
              Env.empty).trace)) ∧
    printed ((New cfgWarn sinksFailA).call Method.Error "y" none ⟨7⟩ Env.empty).trace
      = ["sink error: boom\n"] ∧
    ((New cfgWarn sinksFailA).call Method.Error "y" none ⟨7⟩ Env.empty).env.stdout
      = ["sink error: boom\n"] ∧
    printed ((New cfgWarn sinksAB).call Method.Error "y" none ⟨7⟩ Env.empty).trace = [] :=
  ⟨write_failures_reported cfgWarn sinksFailA Method.Error "y" none ⟨7⟩ Env.empty,
    by decide, by decide, by decide⟩

/-- C10. Delivery order across calls: after any sequence of logging calls,
the events written to each registered sink are exactly those of the calls whose
level is at least the minimum, in call order, one per such call; the sequence
does not depend on the sink. -/
theorem delivery_order {σ : Type} (cfg : Config) (sinks : List (Sink σ))
    (calls : List LogCall) (env : Env σ) (i : Nat) (hi : i < sinks.length) :
    writesTo i ((New cfg sinks).run calls env).2 =
      (calls.filter (fun c => decide (cfg.MinLevel ≤ c.method.level))).map
        (fun c =>
          { Time := c.now
            Level := c.method.level
            Service := if cfg.Service = "" then "unknown" else cfg.Service
            Env := if cfg.Env = "" then "development" else cfg.Env
            Message := c.msg
            Fields := c.fields }) := by
  induction calls generalizing env with
  | nil => rfl
  | cons c cs ih =>
    rw [run_cons, writesTo_append, ih]
    by_cases hlt : c.method.level < cfg.MinLevel
    · have hlt' : c.method.level < (New cfg sinks).cfg.MinLevel := by
        rw [New_MinLevel]; exact hlt
      rw [log_filtered _ _ _ _ _ _ hlt']
      have hdec : decide (cfg.MinLevel ≤ c.method.level) = false :=
        decide_eq_false (not_le.mpr hlt)
      simp [List.filter_cons, hdec, writesTo]
    · have hacc : (New cfg sinks).cfg.MinLevel ≤ c.method.level := by
        rw [New_MinLevel]; exact not_lt.mp hlt
      rw [log_accepted _ _ _ _ _ _ hacc, New_sinks, New_eventOf, writeLoop_writesTo,
        if_pos ⟨Nat.zero_le _, by omega⟩]
      have hdec : decide (cfg.MinLevel ≤ c.method.level) = true :=
        decide_eq_true (not_lt.mp hlt)
      simp [List.filter_cons, hdec]

/-- Witness of C10: minimum Warn, sinks A and B, calls Info "a", Error "b",
Warn "c", Debug "d": sink B receives the events of "b" and then "c", and the
two sinks recorded the writes in that order. -/
theorem delivery_order_witness :
    1 < sinksAB.length ∧
    writesTo 1 ((New cfgWarn sinksAB).run callsABCD Env.empty).2 =
      (callsABCD.filter (fun c => decide (cfgWarn.MinLevel ≤ c.method.level))).map
        (fun c =>
          { Time := c.now
            Level := c.method.level
            Service := if cfgWarn.Service = "" then "unknown" else cfgWarn.Service
            Env := if cfgWarn.Env = "" then "development" else cfgWarn.Env
            Message := c.msg
            Fields := c.fields }) ∧
    writesTo 1 ((New cfgWarn sinksAB).run callsABCD Env.empty).2 =
      [⟨⟨2⟩, ErrorLevel, "svc", "prod", "b", fieldsKV⟩,
       ⟨⟨3⟩, WarnLevel, "svc", "prod", "c", none⟩] ∧
    ((New cfgWarn sinksAB).run callsABCD Env.empty).1.heap =
      [SpyCall.Write 0 ⟨⟨2⟩, ErrorLevel, "svc", "prod", "b", fieldsKV⟩,
       SpyCall.Write 1 ⟨⟨2⟩, ErrorLevel, "svc", "prod", "b", fieldsKV⟩,
       SpyCall.Write 0 ⟨⟨3⟩, WarnLevel, "svc", "prod", "c", none⟩,
       SpyCall.Write 1 ⟨⟨3⟩, WarnLevel, "svc", "prod", "c", none⟩] :=
  ⟨by decide, delivery_order cfgWarn sinksAB callsABCD Env.empty 1 (by decide),
    by decide, by decide⟩

/-- C12. The logger's state is fixed at construction: `log`, each of the four
logging operations and `Shutdown` leave the struct behind their receiver as it
was, for accepted and filtered calls alike; so after any sequence of logging
and `Shutdown` calls the logger is the one `New` built, with the defaulted
service and environment, the given minimum level and async flag and the given
sinks in the given order, and a later call observes exactly these: it filters
by the given minimum level, writes the event with the defaulted service and
environment to the given sinks in order, and closes the given sinks in order. -/
theorem state_fixed_at_construction {σ : Type} (cfg : Config) (sinks : List (Sink σ))
    (ops : List Op) (env : Env σ) :
    (∀ (level : Level) (msg : String) (fields : Fields) (now : time.Time) (env' : Env σ),
      (receiver.log (New cfg sinks) level msg fields now env').1 = New cfg sinks ∧
      (receiver.log (New cfg sinks) level msg fields now env').2
        = (New cfg sinks).log level msg fields now env') ∧
    (∀ (m : Method) (msg : String) (fields : Fields) (now : time.Time) (env' : Env σ),
      (receiver.call (New cfg sinks) m msg fields now env').1 = New cfg sinks ∧
      (receiver.call (New cfg sinks) m msg fields now env').2
        = (New cfg sinks).call m msg fields now env') ∧
    (∀ env' : Env σ,
      (receiver.Shutdown (New cfg sinks) env').1 = New cfg sinks ∧
      (receiver.Shutdown (New cfg sinks) env').2 = (New cfg sinks).Shutdown env') ∧
    ((New cfg sinks).execAll ops env).1 = New cfg sinks ∧
    ((New cfg sinks).execAll ops env).1.cfg =
      { Service := if cfg.Service = "" then "unknown" else cfg.Service
        Env := if cfg.Env = "" then "development" else cfg.Env
        MinLevel := cfg.MinLevel
        Async := cfg.Async } ∧
    ((New cfg sinks).execAll ops env).1.sinks = sinks ∧
    (∀ (op : Op) (env' : Env σ), ((New cfg sinks).exec op env').l = New cfg sinks) ∧
    (∀ (op : Op) (env' : Env σ),
      ((New cfg sinks).execAll ops env).1.exec op env' = (New cfg sinks).exec op env') ∧
    (∀ (c : LogCall) (env' : Env σ),
      writeCalls (((New cfg sinks).execAll ops env).1.exec (Op.log c) env').trace =
        if cfg.MinLevel ≤ c.method.level then
          (List.range sinks.length).map (fun i => (i,
            ({ Time := c.now
               Level := c.method.level
               Service := if cfg.Service = "" then "unknown" else cfg.Service
               Env := if cfg.Env = "" then "development" else cfg.Env
               Message := c.msg
               Fields := c.fields } : Event)))
        else []) ∧
    (∀ (c : LogCall) (env' : Env σ), cfg.MinLevel ≤ c.method.level →
      writeRets (((New cfg sinks).execAll ops env).1.exec (Op.log c) env').trace =
        writeResults
          { Time := c.now
            Level := c.method.level
            Service := if cfg.Service = "" then "unknown" else cfg.Service
            Env := if cfg.Env = "" then "development" else cfg.Env
            Message := c.msg
            Fields := c.fields } sinks env') ∧
    (∀ env' : Env σ,
      closeCalls (((New cfg sinks).execAll ops env).1.exec Op.Shutdown env').trace
        = List.range sinks.length ∧
      closeRets (((New cfg sinks).execAll ops env).1.exec Op.Shutdown env').trace
        = closeResults sinks env') := by
  have h := execAll_l (New cfg sinks) ops env
  refine ⟨?_, ?_, ?_, h, ?_, ?_, ?_, ?_, ?_, ?_, ?_⟩
  · intro level msg fields now env'
    exact ⟨receiver_log_fst _ _ _ _ _ _, receiver_log_snd _ _ _ _ _ _⟩
  · intro m msg fields now env'
    exact ⟨receiver_call_fst _ _ _ _ _ _, receiver_call_snd _ _ _ _ _ _⟩
  · intro env'
    exact ⟨receiver_Shutdown_fst _ _, receiver_Shutdown_snd _ _⟩
  · rw [h, New_cfg]
  · rw [h, New_sinks]
  · intro op env'
    exact exec_l _ _ _
  · intro op env'
    rw [h]
  · intro c env'
    rw [h, exec_log]
    by_cases hle : cfg.MinLevel ≤ c.method.level
    · rw [if_pos hle]
      exact call_accepted_writeCalls cfg sinks _ _ _ _ _ hle
    · rw [if_neg hle, call_filtered cfg sinks _ _ _ _ _ (not_le.mp hle)]
      rfl
  · intro c env' hle
    have hacc : (New cfg sinks).cfg.MinLevel ≤ c.method.level := by
      rw [New_MinLevel]; exact hle
    rw [h, exec_log]
    show writeRets ((New cfg sinks).call c.method c.msg c.fields c.now env').trace = _
    rw [log_accepted _ _ _ _ _ _ hacc, New_sinks, New_eventOf]
    exact writeLoop_writeRets _ _ _ _
  · intro env'
    rw [h, exec_Shutdown]
    constructor
    · show closeCalls ((New cfg sinks).Shutdown env').trace = _
      rw [Shutdown_trace, New_sinks, closeLoop_closeCalls, List.range_eq_range']
    · show closeRets ((New cfg sinks).Shutdown env').trace = _
      rw [Shutdown_closeRets, New_sinks]

/-- Witness of C12: a Config with empty service and environment, minimum Warn
and the async flag set, on the sinks C, A, B: after an accepted call, a
`Shutdown` and a filtered call the stored configuration is the defaulted one
with minimum Warn and the flag set, and a later `Error("z", nil)` is recorded
by C, A and B in this order with service "unknown" and environment
"development". -/
theorem state_fixed_at_construction_witness :
    ((New (Config.mk "" "" WarnLevel true) sinksCAB).execAll
        [Op.log ⟨Method.Error, "y", none, ⟨1⟩⟩, Op.Shutdown, Op.log ⟨Method.Info, "x", none, ⟨2⟩⟩]
        Env.empty).1.cfg =
      { Service := if (Config.mk "" "" WarnLevel true).Service = "" then "unknown"
          else (Config.mk "" "" WarnLevel true).Service
        Env := if (Config.mk "" "" WarnLevel true).Env = "" then "development"
          else (Config.mk "" "" WarnLevel true).Env
        MinLevel := (Config.mk "" "" WarnLevel true).MinLevel
        Async := (Config.mk "" "" WarnLevel true).Async } ∧
    ((New (Config.mk "" "" WarnLevel true) sinksCAB).execAll
        [Op.log ⟨Method.Error, "y", none, ⟨1⟩⟩, Op.Shutdown, Op.log ⟨Method.Info, "x", none, ⟨2⟩⟩]
        Env.empty).1.cfg = Config.mk "unknown" "development" WarnLevel true ∧
    ((New (Config.mk "" "" WarnLevel true) sinksCAB).execAll
        [Op.log ⟨Method.Error, "y", none, ⟨1⟩⟩, Op.Shutdown, Op.log ⟨Method.Info, "x", none, ⟨2⟩⟩,
         Op.log ⟨Method.Error, "z", none, ⟨3⟩⟩]
        Env.empty).2.1.heap =
      [SpyCall.Write 2 ⟨⟨1⟩, ErrorLevel, "unknown", "development", "y", none⟩,
       SpyCall.Write 0 ⟨⟨1⟩, ErrorLevel, "unknown", "development", "y", none⟩,
       SpyCall.Write 1 ⟨⟨1⟩, ErrorLevel, "unknown", "development", "y", none⟩,
       SpyCall.Close 2, SpyCall.Close 0, SpyCall.Close 1,
       SpyCall.Write 2 ⟨⟨3⟩, ErrorLevel, "unknown", "development", "z", none⟩,
       SpyCall.Write 0 ⟨⟨3⟩, ErrorLevel, "unknown", "development", "z", none⟩,
       SpyCall.Write 1 ⟨⟨3⟩, ErrorLevel, "unknown", "development", "z", none⟩] :=
  ⟨(state_fixed_at_construction (Config.mk "" "" WarnLevel true) sinksCAB
      [Op.log ⟨Method.Error, "y", none, ⟨1⟩⟩, Op.Shutdown, Op.log ⟨Method.Info, "x", none, ⟨2⟩⟩]
      Env.empty).2.2.2.2.1,
    by decide, by decide⟩

/-- C13. The async flag has no effect: two Configs that differ only in `Async`
give, for the same sinks, the same starting environment and the same sequence
of logging and `Shutdown` calls (with the same clock readings), the same final
environment and, operation by operation, the same return value and the same
`Write`, `Close` and `Printf` actions with the same events. -/
theorem async_no_effect {σ : Type} (cfg : Config) (b : Bool) (sinks : List (Sink σ))
    (ops : List Op) (env : Env σ) :
    ((New { cfg with Async := b } sinks).execAll ops env).2
      = ((New cfg sinks).execAll ops env).2 := by
  apply execAll_congr
  · rfl
  · rw [New_Service, New_Service]
  · rw [New_Env, New_Env]
  · rw [New_MinLevel, New_MinLevel]

/-- C14. Level rendering: `String` maps the four known levels to "DEBUG",
"INFO", "WARN" and "ERROR", every other value (4 to 255) to "UNKNOWN"; it is
defined on every `Level`, and the four tokens are pairwise distinct. -/
theorem level_rendering :
    Level.String DebugLevel = "DEBUG" ∧
    Level.String InfoLevel = "INFO" ∧
    Level.String WarnLevel = "WARN" ∧
    Level.String ErrorLevel = "ERROR" ∧
    (∀ l : Level, 4 ≤ l.val → Level.String l = "UNKNOWN") ∧
    (∀ l : Level, ∃ t : String, Level.String l = t) ∧
    ["DEBUG", "INFO", "WARN", "ERROR"].Nodup := by
  refine ⟨by decide, by decide, by decide, by decide, ?_, fun l => ⟨_, rfl⟩, by decide⟩
  intro l hl
  have h0 : l ≠ DebugLevel := by
    intro h; rw [h] at hl; revert hl; decide
  have h1 : l ≠ InfoLevel := by
    intro h; rw [h] at hl; revert hl; decide
  have h2 : l ≠ WarnLevel := by
    intro h; rw [h] at hl; revert hl; decide
  have h3 : l ≠ ErrorLevel := by
    intro h; rw [h] at hl; revert hl; decide
  simp [Level.String, h0, h1, h2, h3]

/-- C15. Level ranks: Debug, Info, Warn and Error have the numeric ranks 0, 1, 2
and 3, strictly increasing with severity, and the threshold filter of `log`
compares these ranks: a level of lower rank than the minimum is dropped, any
other is written to the sinks at positions 0..N-1.  The order of the rendered
strings plays no part: "ERROR" sorts before "WARN", yet under minimum Warn an
Error call is delivered. -/
theorem level_ranks {σ : Type} (cfg : Config) (sinks : List (Sink σ)) (level : Level)
    (msg : String) (fields : Fields) (now : time.Time) (env : Env σ) :
    (DebugLevel.val = 0 ∧ InfoLevel.val = 1 ∧ WarnLevel.val = 2 ∧ ErrorLevel.val = 3) ∧
    (DebugLevel < InfoLevel ∧ InfoLevel < WarnLevel ∧ WarnLevel < ErrorLevel) ∧
    (level.val < cfg.MinLevel.val →
      (New cfg sinks).log level msg fields now env = { ret := (), env := env, trace := [] }) ∧
    (cfg.MinLevel.val ≤ level.val →
      (writeCalls ((New cfg sinks).log level msg fields now env).trace).map Prod.fst
        = List.range sinks.length) ∧
    (Level.String ErrorLevel < Level.String WarnLevel ∧
      writesTo 0 ((New cfgWarn sinksAB).call Method.Error "y" none ⟨7⟩ Env.empty).trace
        = [⟨⟨7⟩, ErrorLevel, "svc", "prod", "y", none⟩]) := by
  refine ⟨by decide, by decide, ?_, ?_, ?_, ?_⟩
  · intro h
    unfold logger.log
    rw [New_MinLevel, if_pos (Fin.lt_def.mpr h)]
  · intro h
    have hacc : (New cfg sinks).cfg.MinLevel ≤ level := by
      rw [New_MinLevel]; exact Fin.le_def.mpr h
    rw [log_accepted_level _ _ _ _ _ _ hacc, New_sinks]
    simp only [writeLoop_writeCalls, List.map_map, List.range_eq_range']
    exact List.map_id _
  · exact (@String.lt_iff_toList_lt (Level.String ErrorLevel) (Level.String WarnLevel)).mpr
      (by decide)
  · decide

/-- Witness of C15: under minimum Warn a level of rank 1 is dropped and a level
of rank 3 is written to both sinks. -/
theorem level_ranks_witness :
    (InfoLevel.val < cfgWarn.MinLevel.val ∧
      (New cfgWarn sinksAB).log InfoLevel "x" none ⟨7⟩ Env.empty
        = { ret := (), env := Env.empty, trace := [] }) ∧
    (cfgWarn.MinLevel.val ≤ ErrorLevel.val ∧
      (writeCalls ((New cfgWarn sinksAB).log ErrorLevel "x" none ⟨7⟩ Env.empty).trace).map
        Prod.fst = List.range sinksAB.length) :=
  ⟨⟨by decide,
      (level_ranks cfgWarn sinksAB InfoLevel "x" none ⟨7⟩ Env.empty).2.2.1 (by decide)⟩,
    ⟨by decide,
      (level_ranks cfgWarn sinksAB ErrorLevel "x" none ⟨7⟩ Env.empty).2.2.2.1 (by decide)⟩⟩

/-- C16. Console JSON rendering: the non-pretty ConsoleSink hands the encoder an
object with exactly the keys time, level, service, env and message, and the
key fields if and only if the field map is non-empty; time is the RFC3339
rendering, level the rendered level string, service, env and message the
event's values, fields the event's field map; a nil and an empty field map give
the same object, without the key fields. -/
theorem console_json {σ : Type} (lib : Lib σ) (e : Event) (env : Env σ) :
    (NewConsole false).Write lib e env = lib.Encode (ConsoleSink.jsonData lib e) env ∧
    (ConsoleSink.jsonData lib e).map Prod.fst =
      ["time", "level", "service", "env", "message"] ++
        (if Fields.len e.Fields > 0 then ["fields"] else []) ∧
    ((ConsoleSink.jsonData lib e).map Prod.fst).Nodup ∧
    ("fields" ∈ (ConsoleSink.jsonData lib e).map Prod.fst ↔ Fields.len e.Fields > 0) ∧
    ((ConsoleSink.jsonData lib e).lookup "time"
        = some (DataValue.str (lib.Format e.Time time.RFC3339)) ∧
      (ConsoleSink.jsonData lib e).lookup "level" = some (DataValue.str e.Level.String) ∧
      (ConsoleSink.jsonData lib e).lookup "service" = some (DataValue.str e.Service) ∧
      (ConsoleSink.jsonData lib e).lookup "env" = some (DataValue.str e.Env) ∧
      (ConsoleSink.jsonData lib e).lookup "message" = some (DataValue.str e.Message)) ∧
    (Fields.len e.Fields > 0 →
      (ConsoleSink.jsonData lib e).lookup "fields" = some (DataValue.fields e.Fields)) ∧
    (ConsoleSink.jsonData lib { e with Fields := none }
        = ConsoleSink.jsonData lib { e with Fields := some [] } ∧
      (ConsoleSink.jsonData lib { e with Fields := none }).map Prod.fst
        = ["time", "level", "service", "env", "message"]) := by
  refine ⟨rfl, ?_, ?_, ?_, ?_, ?_, ⟨rfl, rfl⟩⟩
  · unfold ConsoleSink.jsonData
    split <;> simp
  · unfold ConsoleSink.jsonData
    split <;> simp
  · unfold ConsoleSink.jsonData
    by_cases h : Fields.len e.Fields > 0
    · simp [if_pos h]
      exact h
    · simp [if_neg h]
      omega
  · unfold ConsoleSink.jsonData
    split <;> simp [List.lookup]
  · intro h
    unfold ConsoleSink.jsonData
    simp [if_pos h, List.lookup]

/-- Witness of C16: an event with the fields `{"k": "v"}` gives the six keys with
the field map under fields; the same event without fields gives five keys. -/
theorem console_json_witness :
    (Fields.len fieldsKV > 0 ∧
      (ConsoleSink.jsonData libDemo ⟨⟨1⟩, InfoLevel, "svc", "prod", "hello", fieldsKV⟩).lookup
        "fields" = some (DataValue.fields fieldsKV)) ∧
    ((NewConsole false).Write libDemo ⟨⟨1⟩, InfoLevel, "svc", "prod", "hello", fieldsKV⟩
        Env.empty).2.stdout = ["time", "level", "service", "env", "message", "fields"] ∧
    ((NewConsole false).Write libDemo ⟨⟨1⟩, InfoLevel, "svc", "prod", "hello", none⟩
        Env.empty).2.stdout = ["time", "level", "service", "env", "message"] :=
  ⟨⟨by decide,
      (console_json libDemo ⟨⟨1⟩, InfoLevel, "svc", "prod", "hello", fieldsKV⟩
        Env.empty).2.2.2.2.2.1 (by decide)⟩,
    by decide, by decide⟩

/-- C17. Console pretty rendering: the pretty ConsoleSink returns nil and adds to
standard output the text "[HH:MM:SS] LEVEL | service | message", then, if and
only if the field map is non-empty, " |" and " k=v" for each field, then a
newline; with a nil or an empty field map there is no " |". -/
theorem console_pretty {σ : Type} (lib : Lib σ) (e : Event) (env : Env σ) :
    ((NewConsole true).Write lib e env).1 = none ∧
    ((NewConsole true).Write lib e env).2.stdout =
      env.stdout ++
        ([("[" ++ lib.Format e.Time "15:04:05" ++ "] " ++ e.Level.String ++ " | " ++ e.Service
            ++ " | " ++ e.Message)] ++
          (if Fields.len e.Fields > 0 then
            " |" :: (Fields.entries e.Fields).map (fun kv => " " ++ kv.1 ++ "=" ++ kv.2.formatV)
           else []) ++ ["\n"]) ∧
    fmt.text ((NewConsole true).Write lib e env).2.stdout =
      fmt.text env.stdout ++
        (("[" ++ lib.Format e.Time "15:04:05" ++ "] " ++ e.Level.String ++ " | " ++ e.Service
            ++ " | " ++ e.Message) ++
          (if Fields.len e.Fields > 0 then
            " |" ++ fmt.text
              ((Fields.entries e.Fields).map (fun kv => " " ++ kv.1 ++ "=" ++ kv.2.formatV))
           else "") ++ "\n") ∧
    (Fields.len e.Fields = 0 →
      fmt.text ((NewConsole true).Write lib e env).2.stdout =
        fmt.text env.stdout ++
          (("[" ++ lib.Format e.Time "15:04:05" ++ "] " ++ e.Level.String ++ " | " ++ e.Service
            ++ " | " ++ e.Message) ++ "\n")) ∧
    (NewConsole true).Write lib { e with Fields := none } env
      = (NewConsole true).Write lib { e with Fields := some [] } env := by
  have hw : (NewConsole true).Write lib e env = (NewConsole true).writePretty lib e env := rfl
  have hs := writePretty_stdout lib (NewConsole true) e env
  have ht : fmt.text ((NewConsole true).Write lib e env).2.stdout =
      fmt.text env.stdout ++
        (("[" ++ lib.Format e.Time "15:04:05" ++ "] " ++ e.Level.String ++ " | " ++ e.Service
            ++ " | " ++ e.Message) ++
          (if Fields.len e.Fields > 0 then
            " |" ++ fmt.text
              ((Fields.entries e.Fields).map (fun kv => " " ++ kv.1 ++ "=" ++ kv.2.formatV))
           else "") ++ "\n") := by
    rw [hw, hs]
    by_cases h : Fields.len e.Fields > 0
    · simp only [if_pos h]
      simp [text_append, fmt.text, String.append_assoc]
    · simp only [if_neg h]
      simp [text_append, fmt.text, String.append_assoc]
  refine ⟨rfl, ?_, ht, ?_, rfl⟩
  · rw [hw, hs]
  · intro h0
    rw [ht, if_neg (by omega)]
    simp [String.append_assoc]

/-- Witness of C17: an event with the fields k=v and n=3 is printed as
"[15:04:05] INFO | svc | hello | k=v n=3" and a newline; without fields as
"[15:04:05] INFO | svc | hello" and a newline. -/
theorem console_pretty_witness :
    (Fields.len none = 0 ∧
      fmt.text ((NewConsole true).Write libDemo ⟨⟨1⟩, InfoLevel, "svc", "prod", "hello", none⟩
          Env.empty).2.stdout =
        fmt.text Env.empty.stdout ++
          (("[" ++ libDemo.Format ⟨1⟩ "15:04:05" ++ "] " ++ Level.String InfoLevel ++ " | "
            ++ "svc" ++ " | " ++ "hello") ++ "\n")) ∧
    fmt.text ((NewConsole true).Write libDemo ⟨⟨1⟩, InfoLevel, "svc", "prod", "hello", none⟩
        Env.empty).2.stdout = "[15:04:05] INFO | svc | hello\n" ∧
    fmt.text ((NewConsole true).Write libDemo
        ⟨⟨1⟩, InfoLevel, "svc", "prod", "hello", some [("k", Any.str "v"), ("n", Any.int 3)]⟩
        Env.empty).2.stdout = "[15:04:05] INFO | svc | hello | k=v n=3\n" :=
  ⟨⟨by decide,
      (console_pretty libDemo ⟨⟨1⟩, InfoLevel, "svc", "prod", "hello", none⟩
        Env.empty).2.2.2.1 (by decide)⟩,
    by decide, by decide⟩

/-- C18. Shutdown records no closed state: after `Shutdown` has returned, an
accepted logging call still writes its event to the sinks at positions
0..N-1, the same `Write` calls as before `Shutdown`; a second `Shutdown` calls
`Close` on positions 0..N-1 again and returns nil or the aggregated error
according to what these new `Close` calls returned. -/
theorem shutdown_no_closed_state {σ : Type} (cfg : Config) (sinks : List (Sink σ))
    (c : LogCall) (env : Env σ) (h : cfg.MinLevel ≤ c.method.level) :
    writeCalls (((New cfg sinks).exec Op.Shutdown env).l.exec (Op.log c)
        ((New cfg sinks).exec Op.Shutdown env).env).trace =
      (List.range sinks.length).map (fun i => (i,
        ({ Time := c.now
           Level := c.method.level
           Service := if cfg.Service = "" then "unknown" else cfg.Service
           Env := if cfg.Env = "" then "development" else cfg.Env
           Message := c.msg
           Fields := c.fields } : Event))) ∧
    writeCalls (((New cfg sinks).exec Op.Shutdown env).l.exec (Op.log c)
        ((New cfg sinks).exec Op.Shutdown env).env).trace =
      writeCalls ((New cfg sinks).exec (Op.log c) env).trace ∧
    closeCalls (((New cfg sinks).exec Op.Shutdown env).l.exec Op.Shutdown
        ((New cfg sinks).exec Op.Shutdown env).env).trace = List.range sinks.length ∧
    (((New cfg sinks).exec Op.Shutdown env).l.exec Op.Shutdown
        ((New cfg sinks).exec Op.Shutdown env).env).ret =
      some (if (closeFailures (((New cfg sinks).exec Op.Shutdown env).l.exec Op.Shutdown
          ((New cfg sinks).exec Op.Shutdown env).env).trace).length > 0
        then fmt.Errorf (closeFailures (((New cfg sinks).exec Op.Shutdown env).l.exec
          Op.Shutdown ((New cfg sinks).exec Op.Shutdown env).env).trace)
        else none) := by
  rw [exec_l]
  have hlog : ∀ env' : Env σ, ((New cfg sinks).exec (Op.log c) env').trace
      = ((New cfg sinks).call c.method c.msg c.fields c.now env').trace :=
    fun env' => by rw [exec_log]
  have hsd : ∀ env' : Env σ, ((New cfg sinks).exec Op.Shutdown env').trace
      = ((New cfg sinks).Shutdown env').trace :=
    fun env' => by rw [exec_Shutdown]
  have hret : ∀ env' : Env σ, ((New cfg sinks).exec Op.Shutdown env').ret
      = some ((New cfg sinks).Shutdown env').ret :=
    fun env' => by rw [exec_Shutdown]
  refine ⟨?_, ?_, ?_, ?_⟩
  · rw [hlog, call_accepted_writeCalls cfg sinks _ _ _ _ _ h]
  · rw [hlog, hlog, call_accepted_writeCalls cfg sinks _ _ _ _ _ h,
      call_accepted_writeCalls cfg sinks _ _ _ _ _ h]
  · rw [hsd, Shutdown_trace, New_sinks, closeLoop_closeCalls, List.range_eq_range']
  · rw [hret, hsd, Shutdown_ret]

/-- Witness of C18: one sink whose `Close` fails from the second time on: the
first `Shutdown` returns nil, the following `Error("y", nil)` is written to the
sink, and the second `Shutdown` closes the sink again and returns the error of
that second `Close`. -/
theorem shutdown_no_closed_state_witness :
    cfgWarn.MinLevel ≤ (LogCall.mk Method.Error "y" none ⟨7⟩).method.level ∧
    closeCalls (((New cfgWarn [closeOnce 0]).exec Op.Shutdown Env.empty).l.exec Op.Shutdown
        ((New cfgWarn [closeOnce 0]).exec Op.Shutdown Env.empty).env).trace
      = List.range [closeOnce 0].length ∧
    ((New cfgWarn [closeOnce 0]).execAll
        [Op.Shutdown, Op.log ⟨Method.Error, "y", none, ⟨7⟩⟩, Op.Shutdown] Env.empty).2.2 =
      [(some none, [Action.Close 0 none]),
       (none, [Action.Write 0 ⟨⟨7⟩, ErrorLevel, "svc", "prod", "y", none⟩ none]),
       (some (some "shutdown errors: [already closed]"),
         [Action.Close 0 (some "already closed")])] ∧
    ((New cfgWarn [closeOnce 0]).execAll
        [Op.Shutdown, Op.log ⟨Method.Error, "y", none, ⟨7⟩⟩, Op.Shutdown] Env.empty).2.1.heap =
      [SpyCall.Close 0, SpyCall.Write 0 ⟨⟨7⟩, ErrorLevel, "svc", "prod", "y", none⟩,
       SpyCall.Close 0] :=
  ⟨by decide,
    (shutdown_no_closed_state cfgWarn [closeOnce 0] ⟨Method.Error, "y", none, ⟨7⟩⟩ Env.empty
      (by decide)).2.2.1,
    by decide, by decide⟩

/-- C19. Extremes of the threshold: with minimum level Debug (the zero value) no
call of Debug, Info, Warn or Error is filtered; with any minimum level from
Debug to Error an Error call is not filtered; with a minimum level above Error
`New` keeps that level and every call of the four operations is filtered, so
no sequence of calls makes any `Write`. -/
theorem threshold_extremes {σ : Type} (cfg : Config) (sinks : List (Sink σ)) (m : Method)
    (msg : String) (fields : Fields) (now : time.Time) (env : Env σ) :
    DebugLevel = (0 : Level) ∧
    (cfg.MinLevel = DebugLevel → ∀ i, i < sinks.length →
      writesTo i ((New cfg sinks).call m msg fields now env).trace =
        [{ Time := now
           Level := m.level
           Service := if cfg.Service = "" then "unknown" else cfg.Service
           Env := if cfg.Env = "" then "development" else cfg.Env
           Message := msg
           Fields := fields }]) ∧
    (cfg.MinLevel ≤ ErrorLevel → ∀ i, i < sinks.length →
      writesTo i ((New cfg sinks).call Method.Error msg fields now env).trace =
        [{ Time := now
           Level := ErrorLevel
           Service := if cfg.Service = "" then "unknown" else cfg.Service
           Env := if cfg.Env = "" then "development" else cfg.Env
           Message := msg
           Fields := fields }]) ∧
    (ErrorLevel < cfg.MinLevel →
      (New cfg sinks).cfg.MinLevel = cfg.MinLevel ∧
      (New cfg sinks).call m msg fields now env = { ret := (), env := env, trace := [] } ∧
      ∀ (calls : List LogCall) (env' : Env σ), (New cfg sinks).run calls env' = (env', [])) := by
  refine ⟨rfl, ?_, ?_, ?_⟩
  · intro h0 i hi
    have hle : cfg.MinLevel ≤ m.level := by
      rw [h0]; exact Fin.zero_le _
    exact call_accepted_writesTo cfg sinks m msg fields now env hle i hi
  · intro hle i hi
    exact call_accepted_writesTo cfg sinks Method.Error msg fields now env hle i hi
  · intro hgt
    have hlt : m.level < cfg.MinLevel := by
      have : m.level ≤ ErrorLevel := by cases m <;> decide
      exact lt_of_le_of_lt this hgt
    exact ⟨New_MinLevel cfg sinks, call_filtered cfg sinks m msg fields now env hlt,
      fun calls env' => run_all_filtered cfg sinks hgt calls env'⟩

/-- Witness of C19: with minimum level `Level(4)` the four calls Info, Error,
Warn, Debug reach no sink; with the zero-value minimum a Debug call reaches
sink B. -/
theorem threshold_extremes_witness :
    (ErrorLevel < cfgLevel4.MinLevel ∧
      (New cfgLevel4 sinksAB).run callsABCD Env.empty = (Env.empty, [])) ∧
    ((Config.mk "" "" DebugLevel false).MinLevel = DebugLevel ∧
      writesTo 1 ((New (Config.mk "" "" DebugLevel false) sinksAB).call Method.Debug "d" none
          ⟨4⟩ Env.empty).trace =
        [{ Time := ⟨4⟩
           Level := Method.Debug.level
           Service := if (Config.mk "" "" DebugLevel false).Service = "" then "unknown"
             else (Config.mk "" "" DebugLevel false).Service
           Env := if (Config.mk "" "" DebugLevel false).Env = "" then "development"
             else (Config.mk "" "" DebugLevel false).Env
           Message := "d"
           Fields := none }]) :=
  ⟨⟨by decide,
      ((threshold_extremes cfgLevel4 sinksAB Method.Debug "d" none ⟨4⟩ Env.empty).2.2.2
        (by decide)).2.2 callsABCD Env.empty⟩,
    ⟨rfl,
      (threshold_extremes (Config.mk "" "" DebugLevel false) sinksAB Method.Debug "d" none ⟨4⟩
        Env.empty).2.1 rfl 1 (by decide)⟩⟩

end SinkRepo
